import Mathlib

/-!
# Verification of the NW_Intersteller_Tile_Filtering test engine

Shallow embedding of the combinatorial dropdown test engine found in this
repository (the `CompactDropdownTester` class of `src/unnamed/part_000`,
lines 2274-5117, which coincides with `src/dropdown-validator5.js`, and the
older `CompleteDropdownTester` of `src/dropdown-validator3.js`).

Modelling conventions:
* machine integers are `Nat` (no arithmetic in the engine can overflow in
  practice; all counters only grow by 1);
* fallible asynchronous operations become `Except String` values; the
  browser/driver layer is an explicit environment (`Env`) of oracles;
* the mutable page (the current value of each `<select>` element) is a
  `PageState := List String` threaded through the functions;
* `executeWithRetry` applied to a *deterministic* operation either returns
  the first-attempt result or, if the operation always fails, throws the
  exhaustion error `"<opName> failed after <maxRetries> attempts"`; the
  per-operation wrappers inside the enumerator are modelled by that net
  effect (the retry loop itself is embedded separately and verified in the
  retry-executor theorems below);
* wall-clock timestamps, log file writes and `delay` calls are dropped:
  they do not influence any control flow.
-/

namespace NWTF

/-- An option extracted by `getDropdownOptions`:
`{ value: opt.value, text: opt.textContent, index: i }`. -/
structure Opt where
  value : String
  text : String
  index : Nat
deriving Repr, DecidableEq

/-- The page state visible to the engine: the current value of each
dropdown's inner `<select>`, indexed by dropdown index. -/
abbrev PageState := List String

/-- Run-wide mutable counters of the tester
(`this.totalTests / this.passedTests / this.failedTests`). -/
structure Counters where
  totalTests : Nat
  passedTests : Nat
  failedTests : Nat
deriving Repr, DecidableEq

/-! ## Retry/Recovery executor (`executeWithRetry`)

Two embeddings: the one of `src/unnamed/part_000` lines 2538-2560 (identical
to `src/dropdown-validator5.js` lines 273-295), and the older one of
`src/dropdown-validator3.js` lines 213-271 whose counter updates are guarded
by a JavaScript truthiness test.

The per-operation-name retry counters `this.retryCounts` are modelled as a
total map `String → Nat`.  The wrapped operation is modelled as a function
from the attempt number (starting at 1) to its outcome, so that "fails k
times then succeeds" is expressible.  Backoff delays and recovery actions
(`performRecovery`) have no observable effect on the executor's result and
are dropped. -/

/-- Pointwise update of a counter map (JS `this.retryCounts[name] = v`). -/
def updateCount (f : String → Nat) (k : String) (v : Nat) : String → Nat :=
  fun k2 => if k2 = k then v else f k2

/-- Outcome of running the retry loop: the final result, the final counter
map, and how many times the operation was invoked. -/
structure RetryOutcome (α : Type) where
  result : Except String α
  counts : String → Nat
  attemptsMade : Nat

/-- The `for (let attempt = 1; attempt <= maxRetries; attempt++)` loop of
`executeWithRetry` (part_000 lines 2542-2558).  `fuel` is the number of
attempts still allowed (`maxRetries - attempt + 1`).  On success the
operation's counter is reset to 0 (line 2547); on failure it is incremented
(line 2550). -/
def retryLoop (opName : String) (op : Nat → Except String α) (maxRetries : Nat)
    (counts : String → Nat) (attempt : Nat) : Nat → RetryOutcome α
  | 0 =>
    -- line 2559: throw new Error(`${opName} failed after ${maxRetries} attempts`)
    ⟨.error (opName ++ " failed after " ++ toString maxRetries ++ " attempts"), counts, 0⟩
  | fuel + 1 =>
    match op attempt with
    | .ok v => ⟨.ok v, updateCount counts opName 0, 1⟩
    | .error _ =>
      let c1 := updateCount counts opName (counts opName + 1)
      let r := retryLoop opName op maxRetries c1 (attempt + 1) fuel
      ⟨r.result, r.counts, r.attemptsMade + 1⟩

/-- `executeWithRetry(opName, opFn, maxRetries)` of `src/unnamed/part_000`
lines 2538-2560 / `src/dropdown-validator5.js` lines 273-295. -/
def executeWithRetry (opName : String) (op : Nat → Except String α)
    (maxRetries : Nat) (counts : String → Nat) : RetryOutcome α :=
  retryLoop opName op maxRetries counts 1 maxRetries

/-- The retry loop of `src/dropdown-validator3.js` lines 216-268.  Both the
reset (lines 235-237) and the increment (lines 251-253) are wrapped in
`if (this.retryCounts[operationName]) { ... }`, i.e. they only run when the
stored counter is non-zero (JS truthiness).  The last error's message is
carried into the final exhaustion error (line 270). -/
def retryLoopV3 (opName : String) (op : Nat → Except String α) (maxRetries : Nat)
    (counts : String → Nat) (attempt : Nat) (lastErr : String) : Nat → RetryOutcome α
  | 0 =>
    ⟨.error ("Operation " ++ opName ++ " failed after " ++ toString maxRetries
        ++ " attempts: " ++ lastErr), counts, 0⟩
  | fuel + 1 =>
    match op attempt with
    | .ok v =>
      ⟨.ok v, (if counts opName ≠ 0 then updateCount counts opName 0 else counts), 1⟩
    | .error e =>
      let c1 := if counts opName ≠ 0 then updateCount counts opName (counts opName + 1)
                else counts
      let r := retryLoopV3 opName op maxRetries c1 (attempt + 1) e fuel
      ⟨r.result, r.counts, r.attemptsMade + 1⟩

/-- `executeWithRetry(operationName, operationFn, maxRetries)` of
`src/dropdown-validator3.js` lines 213-271 (`lastError` starts as `null`,
printed as `'Unknown error'`). -/
def executeWithRetryV3 (opName : String) (op : Nat → Except String α)
    (maxRetries : Nat) (counts : String → Nat) : RetryOutcome α :=
  retryLoopV3 opName op maxRetries counts 1 "Unknown error" maxRetries

/-! ### Retry-executor lemmas -/

/-- On an always-failing operation the loop uses up all its fuel, making one
attempt per unit of fuel, and ends with the exhaustion error. -/
theorem retryLoop_all_fail (opName : String) (op : Nat → Except String α)
    (maxRetries : Nat) (e : Nat → String) (h : ∀ n, op n = .error (e n)) :
    ∀ fuel attempt counts,
      (retryLoop opName op maxRetries counts attempt fuel).result
          = .error (opName ++ " failed after " ++ toString maxRetries ++ " attempts")
        ∧ (retryLoop opName op maxRetries counts attempt fuel).attemptsMade = fuel := by
  intro fuel
  induction fuel with
  | zero => intro attempt counts; exact ⟨rfl, rfl⟩
  | succ n ih =>
    intro attempt counts
    simp only [retryLoop, h attempt]
    exact ⟨(ih (attempt + 1) _).1, by rw [(ih (attempt + 1) _).2]⟩

/-- If the operation fails on every attempt in `[attempt, attempt+j)` and
succeeds on attempt `attempt+j`, with enough fuel the loop returns the
success value, resets the operation's counter to 0, and makes `j+1`
attempts. -/
theorem retryLoop_eventually_ok (opName : String) (op : Nat → Except String α)
    (maxRetries : Nat) (v : α) :
    ∀ j fuel attempt counts, j < fuel →
      (∀ n, attempt ≤ n → n < attempt + j → ∃ msg, op n = .error msg) →
      op (attempt + j) = .ok v →
      (retryLoop opName op maxRetries counts attempt fuel).result = .ok v
        ∧ (retryLoop opName op maxRetries counts attempt fuel).counts opName = 0
        ∧ (retryLoop opName op maxRetries counts attempt fuel).attemptsMade = j + 1 := by
  intro j
  induction j with
  | zero =>
    intro fuel attempt counts hfuel _ hok
    obtain ⟨fuel', rfl⟩ : ∃ f, fuel = f + 1 := ⟨fuel - 1, by omega⟩
    simp only [retryLoop]
    rw [show attempt + 0 = attempt from rfl] at hok
    rw [hok]
    refine ⟨rfl, ?_, rfl⟩
    simp [updateCount]
  | succ j ih =>
    intro fuel attempt counts hfuel hfail hok
    obtain ⟨fuel', rfl⟩ : ∃ f, fuel = f + 1 := ⟨fuel - 1, by omega⟩
    obtain ⟨msg, hmsg⟩ := hfail attempt (le_refl _) (by omega)
    simp only [retryLoop, hmsg]
    have hrec := ih fuel' (attempt + 1) (updateCount counts opName (counts opName + 1))
      (by omega) (fun n h1 h2 => hfail n (by omega) (by omega))
      (by rw [show attempt + 1 + j = attempt + (j + 1) from by omega]; exact hok)
    exact ⟨hrec.1, hrec.2.1, by rw [hrec.2.2]⟩

/-- **C5** (retry exhaustion), for the `executeWithRetry` of
`src/unnamed/part_000` lines 2538-2560: with an operation that fails on
every invocation and `maxAttempts = m`, the executor invokes the operation
exactly `m` times and then fails with the error
`"<operationName> failed after <m> attempts"`, which names the operation. -/
theorem executeWithRetry_exhaustion (opName : String) (op : Nat → Except String α)
    (m : Nat) (counts : String → Nat) (e : Nat → String)
    (hfail : ∀ n, op n = .error (e n)) :
    (executeWithRetry opName op m counts).attemptsMade = m
      ∧ (executeWithRetry opName op m counts).result
          = .error (opName ++ " failed after " ++ toString m ++ " attempts") := by
  have h := retryLoop_all_fail opName op m e hfail m 1 counts
  exact ⟨h.2, h.1⟩

/-- Witness for C5: a concrete always-failing operation with `m = 3`. -/
theorem executeWithRetry_exhaustion_witness :
    (executeWithRetry "navigation" (fun _ => (.error "timeout" : Except String Bool)) 3
        (fun _ => 0)).attemptsMade = 3
      ∧ (executeWithRetry "navigation" (fun _ => (.error "timeout" : Except String Bool)) 3
          (fun _ => 0)).result = .error ("navigation failed after 3 attempts") := by
  have h := executeWithRetry_exhaustion "navigation"
    (fun _ => (.error "timeout" : Except String Bool)) 3 (fun _ => 0)
    (fun _ => "timeout") (fun _ => rfl)
  exact ⟨h.1, by rw [h.2]; rfl⟩

/-- **C6** (retry idempotence), for the `executeWithRetry` of
`src/unnamed/part_000` lines 2538-2560 / `src/dropdown-validator5.js` lines
273-295: if the operation fails on attempts `1..k` and succeeds on attempt
`k+1` with `k < maxAttempts`, the executor returns the success value and the
cumulative retry counter stored under the operation's name equals 0
afterwards (line 2547 resets it on success). -/
theorem executeWithRetry_success_resets (opName : String) (op : Nat → Except String α)
    (m k : Nat) (v : α) (counts : String → Nat) (hk : k < m)
    (hfail : ∀ n, 1 ≤ n → n ≤ k → ∃ msg, op n = .error msg)
    (hok : op (k + 1) = .ok v) :
    (executeWithRetry opName op m counts).result = .ok v
      ∧ (executeWithRetry opName op m counts).counts opName = 0 := by
  have h := retryLoop_eventually_ok opName op m v k m 1 counts hk
    (fun n h1 h2 => hfail n h1 (by omega))
    (by rw [show 1 + k = k + 1 from by omega]; exact hok)
  exact ⟨h.1, h.2.1⟩

/-- Witness for C6: an operation failing exactly once (`k = 1 < 3`),
starting from a non-zero stored counter to exhibit the reset. -/
theorem executeWithRetry_success_resets_witness :
    (executeWithRetry "selection"
        (fun n => if n ≤ 1 then (.error "flaky" : Except String Nat) else .ok 42) 3
        (fun _ => 7)).result = .ok 42
      ∧ (executeWithRetry "selection"
          (fun n => if n ≤ 1 then (.error "flaky" : Except String Nat) else .ok 42) 3
          (fun _ => 7)).counts "selection" = 0 :=
  executeWithRetry_success_resets "selection"
    (fun n => if n ≤ 1 then (.error "flaky" : Except String Nat) else .ok 42)
    3 1 42 (fun _ => 7) (by omega)
    (fun n h1 h2 => ⟨"flaky", by simp [show n ≤ 1 from h2]⟩) (by simp)

/-- **C7** (code bug in `src/dropdown-validator3.js` lines 240-253): the
claim says every failed attempt increments the operation's cumulative retry
counter by one, so after `j` failed attempts starting from 0 the counter
equals `j`.  In validator3 the increment is wrapped in
`if (this.retryCounts[operationName])`, which is false when the stored
counter is 0 (and the constructor initialises every counter to 0), so the
counter stays 0 forever.  Evaluating both embeddings on the same concrete
input — operation `"selection"` failing twice, `maxAttempts = 2`, counter
starting at 0 — shows the divergence: validator3 leaves the counter at 0
while part_000 lines 2549-2551 (cited by the same claim) leave it at 2. -/
theorem retryCounter_v3_never_incremented :
    (executeWithRetryV3 "selection" (fun _ => (.error "boom" : Except String Bool)) 2
        (fun _ => 0)).counts "selection" = 0
      ∧ (executeWithRetry "selection" (fun _ => (.error "boom" : Except String Bool)) 2
          (fun _ => 0)).counts "selection" = 2
      ∧ (executeWithRetryV3 "selection" (fun _ => (.error "boom" : Except String Bool)) 2
          (fun _ => 0)).attemptsMade = 2 := by
  refine ⟨rfl, ?_, rfl⟩
  simp [executeWithRetry, retryLoop, updateCount]

/-! ## Page observations and the driver environment

The browser/driver layer (excluded by the spec as an external collaborator)
is modelled as an environment of oracles.  Each oracle is a function of the
current `PageState`, so a deterministic page model is obtained for free.
`Except String` is used for the `executeScript` calls that can throw. -/

/-- Raw result of `detectTilesOnNationwidePage` (part_000 lines 2794-3060):
element counts, visibility, and the "no results" banner if any.
`noResultsText` is the `noResultsElement?.text` optional chain. -/
structure RawTileData where
  total : Nat
  visible : Nat
  hasNoResultsMessage : Bool
  noResultsText : Option String
deriving Repr, DecidableEq

/-- Result of the lenient re-check script of `validateTileCount`
(part_000 lines 3370-3400). -/
structure RecheckData where
  allTilesCount : Nat
  hiddenTilesCount : Nat
  hasNoResultsMessage : Bool
  noResultsText : String
deriving Repr, DecidableEq

/-- Result of `validateNoResultsMessage` (part_000 lines 3062-3127); its
internal try/catch makes it total. -/
structure NoResInfo where
  found : Bool
  isVisible : Bool
  elementType : String
  message : String
deriving Repr, DecidableEq

/-- Result of the sort-controls existence script
(part_000 lines 3204-3233). -/
structure SortControlsInfo where
  controlsExist : Bool
  count : Nat
deriving Repr, DecidableEq

/-- The driver environment: one oracle per `executeScript` call site, plus
the selection-success oracle. -/
structure Env where
  /-- does `selectDropdownOption`'s set-value + re-read script succeed for
  this dropdown index and option (part_000 lines 2687-2707)? -/
  selOk : Nat → Opt → Bool
  /-- `detectTilesOnNationwidePage`; `.error` models a thrown script error. -/
  tileObs : PageState → Except String RawTileData
  /-- the lenient re-check script inside `validateTileCount`. -/
  recheck : PageState → RecheckData
  /-- `validateNoResultsMessage` (total: it catches its own errors). -/
  noRes : PageState → NoResInfo
  /-- the sort-controls existence script; `.error` models a thrown error. -/
  sortControls : PageState → Except String SortControlsInfo
  /-- titles of the `bolt-tile` elements, in page order, as extracted by the
  sort-validation script (part_000 lines 3262-3268). -/
  boltTileTitles : PageState → List String
  /-- `sortControls.length` as seen by the sort-validation script. -/
  sortControlCount : PageState → Nat

/-- The canonical expected "no results" banner. -/
def noItemsMsg : String := "There are no items that match your choices."

/-- Is `pat` a prefix-by-characters of `cs`? (helper for `strIncludes`). -/
def startsWithCh : List Char → List Char → Bool
  | [], _ => true
  | _ :: _, [] => false
  | p :: ps, c :: cs => p = c && startsWithCh ps cs

/-- Does `pat` occur as a contiguous run of `cs`? -/
def containsCh (pat : List Char) : List Char → Bool
  | [] => startsWithCh pat []
  | c :: cs => startsWithCh pat (c :: cs) || containsCh pat cs

/-- JS `hay.includes(pat)` (substring test). -/
def strIncludes (hay pat : String) : Bool := containsCh pat.data hay.data

/-- JS `s.toLowerCase()` (character-wise lowering). -/
def lowerStr (s : String) : String := ⟨s.data.map Char.toLower⟩

/-- `select.value` as re-read from the page: `s.get? i` is `none` when no
dropdown `i` exists (the script's `select ? ... : false` case). -/
def pageValue (s : PageState) (i : Nat) : Option String := s.get? i

/-- `options.find(opt => opt.value === '') || options[0]`
(part_000 lines 2722 / 2786): the empty-value option if present, else the
first option; `none` iff the option list is empty. -/
def defaultOption (opts : List Opt) : Option Opt :=
  match opts.find? (fun o => o.value = "") with
  | some o => some o
  | none => opts.head?

/-! ## `validateTileCount` (part_000 lines 3352-3460) -/

/-- Outcome of `validateTileCount`: the fields of its returned object that
feed the classifier. -/
structure TileValidation where
  total : Nat
  visible : Nat
  hasNoResultsMessage : Bool
  noResultsText : Option String
  status : String
deriving Repr, DecidableEq

/-- `validateTileCount` (part_000 lines 3352-3460), minus delays/scrolling.
It observes tiles, optionally re-checks hidden tiles in the "no results"
scenario (lines 3368-3422), and derives the tile status (lines 3437-3444).
A thrown script error surfaces as this operation's retry-exhaustion error
(`maxRetries.tileValidation = 2`). -/
def validateTileCount (env : Env) (s : PageState) : Except String TileValidation :=
  match env.tileObs s with
  | .error _ => .error "tileValidation failed after 2 attempts"
  | .ok raw =>
    let td :=
      if raw.hasNoResultsMessage ∧ raw.total > 0 ∧ raw.visible = 0 then
        let rc := env.recheck s
        if rc.hiddenTilesCount > 0 then
          { raw with
              total := rc.allTilesCount, visible := 0,
                     hasNoResultsMessage := rc.hasNoResultsMessage,
                     noResultsText := some (if rc.noResultsText ≠ "" then rc.noResultsText
                                            else raw.noResultsText.getD "") }
        else raw
      else raw
    let st := if td.visible > 0 then "VALIDATED"
              else if td.hasNoResultsMessage then "NO_TILES_WITH_MESSAGE"
              else "NO_VISIBLE_TILES"
    .ok ⟨td.total, td.visible, td.hasNoResultsMessage, td.noResultsText, st⟩

/-! ## `validateSortByForVisibleTiles` (part_000 lines 3130-3350) -/

/-- The (heterogeneous) object returned by one of the branches of
`validateSortByForVisibleTiles`; fields absent from a branch's object
literal are `none` / `false` / `""`. -/
structure SortResult where
  status : String
  reason : String
  tilesToSort : Nat
  sortValidationApplicable : Bool
  sortValidationCondition : String
  sortControlsFound : Option Nat
  currentSortStatus : Option String
  canBeSorted : Option Bool
  hasNoResultsMessage : Option Bool
  isProblematicCombo : Bool
deriving Repr, DecidableEq

/-- A `SortResult` with every optional field absent. -/
def emptySortResult : SortResult :=
  ⟨"", "", 0, false, "", none, none, none, none, false⟩

/-- Insertion of one string into a list sorted by `le` (used to model the JS
`Array.prototype.sort` with a two-argument comparator). -/
def insertLe (le : String → String → Bool) (x : String) : List String → List String
  | [] => [x]
  | y :: tl => if le x y then x :: y :: tl else y :: insertLe le x tl

/-- Insertion sort by `le`, modelling `[...titles].sort(cmp)`. -/
def sortLe (le : String → String → Bool) : List String → List String
  | [] => []
  | x :: tl => insertLe le x (sortLe le tl)

/-- The sort-by validation script (part_000 lines 3248-3337): take up to 10
`bolt-tile` titles, require at least 2, compare the current order with its
alphabetical and reverse-alphabetical sortings (`localeCompare` is modelled
by the default string order). -/
def sortScriptRun (env : Env) (s : PageState) : SortResult :=
  let tiles := (env.boltTileTitles s).take 10
  if tiles.length < 2 then
    { emptySortResult with
        status := "NOT_APPLICABLE",
        reason := "Not enough bolt-tile elements found" }
  else
    let titles := tiles.filter (fun t => t.length > 0)
    if titles.length < 2 then
      { emptySortResult with
          status := "NOT_APPLICABLE",
          reason := "Not enough tile titles found" }
    else
      let joined := String.intercalate "|" titles
      let alpha := String.intercalate "|" (sortLe (fun a b => a ≤ b) titles)
      let rev := String.intercalate "|" (sortLe (fun a b => b ≤ a) titles)
      let sortStatus := if joined = alpha then "ALPHABETICAL"
                        else if joined = rev then "REVERSE_ALPHABETICAL"
                        else "UNSORTED"
      { emptySortResult with
          status := "VALIDATED",
          sortControlsFound := some (env.sortControlCount s),
          currentSortStatus := some sortStatus,
          canBeSorted := some (titles.length ≥ 2),
          sortValidationApplicable := true,
          sortValidationCondition := "Sufficient tiles and sort controls available" }

/-- `selection.map(s => s.text || '').join('|').toLowerCase()` and the
"known problematic combination" test (part_000 lines 3160-3166). -/
def isProblematicCombo (selection : List Opt) : Prop :=
  let selectionTexts := lowerStr (String.intercalate "|" (selection.map (fun o => o.text)))
  strIncludes selectionTexts "quick tips" ∨ strIncludes selectionTexts "videos"
    ∨ (strIncludes selectionTexts "clients" ∧ strIncludes selectionTexts "quick tips")
    ∨ (strIncludes selectionTexts "financial professionals"
        ∧ strIncludes selectionTexts "quick tips")
    ∨ (strIncludes selectionTexts "financial professionals"
        ∧ strIncludes selectionTexts "videos")

instance (selection : List Opt) : Decidable (isProblematicCombo selection) := by
  unfold isProblematicCombo; infer_instance

/-- The part of `validateSortByForVisibleTiles` after the valid-no-results
early return, i.e. the fall-through target of lines 3136-3157: lines
3159-3187 (problematic combinations), 3189-3198 (fewer than 2 tiles),
3204-3347 (sort controls and the sort script). -/
def sortByRest (env : Env) (selection : List Opt) (tv : TileValidation)
    (s : PageState) : Except String (SortResult × Bool) :=
  if isProblematicCombo selection ∧ tv.visible = 0 then
    let nrv := env.noRes s
    .ok ({ emptySortResult with
        status := "VALIDATED_NO_TILES",
        reason := "Expected no tiles for this combination",
        hasNoResultsMessage := some nrv.found,
        isProblematicCombo := true,
        sortValidationCondition := "No tiles to sort (known problematic combination)" },
      false)
  -- lines 3189-3198: fewer than 2 visible tiles
  else if tv.visible < 2 then
    .ok ({ emptySortResult with
        status := "NOT_APPLICABLE",
        reason := "Insufficient tiles for sort validation (need at least 2 tiles)",
        tilesToSort := tv.visible,
        sortValidationCondition := "Insufficient tiles (< 2) for sort validation" },
      false)
  else
    -- lines 3204-3245: look for sort controls
    match env.sortControls s with
    | .error _ => .error "sortByValidation failed after 2 attempts"
    | .ok sc =>
      if ¬sc.controlsExist then
        .ok ({ emptySortResult with
            status := "NOT_APPLICABLE",
            reason := "No sort controls found on page",
            tilesToSort := tv.visible,
            sortControlsFound := some 0,
            sortValidationCondition := "No sort controls available on page" },
          false)
      else
        .ok (sortScriptRun env s, true)

/-- `validateSortByForVisibleTiles` (part_000 lines 3130-3350).  The second
component of the returned pair records whether the sort-comparison script
(lines 3248-3337) was actually executed — instrumentation only, it does not
alter the control flow.  A thrown script error surfaces as this operation's
retry-exhaustion error (`maxRetries.sortByValidation = 2`). -/
def validateSortByForVisibleTiles (env : Env) (selection : List Opt)
    (tv : TileValidation) (s : PageState) : Except String (SortResult × Bool) :=
  -- lines 3136-3157: valid "no results" banner with no tiles
  if tv.hasNoResultsMessage ∧ tv.visible = 0 then
    if (env.noRes s).found ∧ (env.noRes s).isVisible then
      .ok ({ emptySortResult with
          status := "VALIDATED_WITH_NO_RESULTS",
          reason := "No tiles found with no-results message properly displayed",
          hasNoResultsMessage := some true,
          sortValidationCondition := "No tiles to sort (valid no-results message displayed)" },
        false)
    else sortByRest env selection tv s
  else sortByRest env selection tv s

/-! ## `testSingleCombination` (part_000 lines 3463-3637) -/

/-- One entry of `result.options` as pushed by the verification loop
(part_000 lines 3512-3516). -/
structure OptEntry where
  dropdown : String
  value : String
  text : String
deriving Repr, DecidableEq

/-- The `result.tileCount` sub-object. -/
structure TileCountField where
  total : Nat
  visible : Nat
  status : String
  hasNoResultsMessage : Bool
  noResultsText : String
deriving Repr, DecidableEq

/-- The `result.sortByValidation` sub-object. -/
structure SortByField where
  status : String
  tilesToSort : Nat
  sortControlsFound : Nat
  currentSortStatus : Option String
  canBeSorted : Bool
  sortValidationApplicable : Bool
  sortValidationCondition : String
deriving Repr, DecidableEq

/-- A `CombinationResult` (part_000 lines 3465-3497, minus timestamps and
the tile sample list, which carry no logic). -/
structure CombResult where
  name : String
  number : Nat
  options : List OptEntry
  status : String
  error : Option String
  tileCount : TileCountField
  sortByValidation : SortByField
deriving Repr, DecidableEq

/-- Initial `result.tileCount` (lines 3474-3483). -/
def initTileCount : TileCountField := ⟨0, 0, "NOT_VALIDATED", false, ""⟩

/-- Initial `result.sortByValidation` (lines 3486-3496). -/
def initSortBy : SortByField :=
  ⟨"NOT_APPLICABLE", 0, 0, none, false, false, "Not evaluated yet"⟩

/-- The verification loop of step 1 (lines 3501-3517): re-read every
dropdown's value and compare with the assigned option.  Returns the entries
pushed before any failure, and the thrown message on the first mismatch.
`s.get? i = some v` models `select ? select.value === val : false`. -/
def verifySelections (s : PageState) : List Opt → Nat → List OptEntry × Option String
  | [], _ => ([], none)
  | o :: tl, i =>
    if pageValue s i = some o.value then
      let r := verifySelections s tl (i + 1)
      (⟨"Dropdown " ++ toString (i + 1), o.value, o.text⟩ :: r.1, r.2)
    else ([], some ("Verification failed for dropdown " ++ toString (i + 1)
        ++ ". Expected: " ++ o.value))

/-- The catch block (lines 3621-3632), applied to the partially-built
result: status `FAILED`, the error message, tile status `ERROR`. -/
def markFailed (r : CombResult) (msg : String) : CombResult :=
  { r with
      status := "FAILED", error := some msg,
      tileCount := { r.tileCount with status := "ERROR" } }

/-- `this.totalTests++; this.passedTests++`. -/
def incPass (c : Counters) : Counters :=
  { c with totalTests := c.totalTests + 1, passedTests := c.passedTests + 1 }

/-- `this.totalTests++; this.failedTests++`. -/
def incFail (c : Counters) : Counters :=
  { c with totalTests := c.totalTests + 1, failedTests := c.failedTests + 1 }

/-- `testSingleCombination(selection, dropdownElements, comboNumber)`
(part_000 lines 3463-3637): verify the applied selection, observe tiles,
run sort validation, classify (lines 3547-3607), updating the run counters;
any thrown error is caught (lines 3621-3632) and yields status `FAILED`. -/
def testSingleCombination (env : Env) (selection : List Opt) (comboNumber : Nat)
    (s : PageState) (c : Counters) : CombResult × Counters :=
  let base : CombResult :=
    ⟨"Combo " ++ toString comboNumber, comboNumber, [], "PASSED", none,
      initTileCount, initSortBy⟩
  let v := verifySelections s selection 0
  let r0 := { base with options := v.1 }
  match v.2 with
  | some msg => (markFailed r0 msg, incFail c)
  | none =>
    match validateTileCount env s with
    | .error msg => (markFailed r0 msg, incFail c)
    | .ok tv =>
      let r1 := { r0 with tileCount :=
        ⟨tv.total, tv.visible, tv.status, tv.hasNoResultsMessage, tv.noResultsText.getD ""⟩ }
      match validateSortByForVisibleTiles env selection tv s with
      | .error msg => (markFailed r1 msg, incFail c)
      | .ok (sv, _) =>
        let r2 := { r1 with sortByValidation :=
          ⟨sv.status, tv.visible, sv.sortControlsFound.getD 0, sv.currentSortStatus,
            (sv.canBeSorted.getD false), sv.sortValidationApplicable,
            (if sv.sortValidationCondition = "" then "Not evaluated"
             else sv.sortValidationCondition)⟩ }
        -- step 4: lines 3547-3607
        let hasVisibleTiles := decide (tv.visible > 0)
        let hasNoResultsMessage := tv.hasNoResultsMessage
        let hasCorrectNoResultsMessage := hasNoResultsMessage &&
          (match tv.noResultsText with
           | some t => strIncludes t noItemsMsg
           | none => false)
        if hasVisibleTiles then
          ({ r2 with
              status := "PASSED", error := none,
              tileCount := { r2.tileCount with status := "VALIDATED" } }, incPass c)
        else if hasCorrectNoResultsMessage then
          ({ r2 with
              status := "PASSED",
              error := some ("Expected behavior: " ++ (tv.noResultsText.getD "").take 100),
              tileCount := { r2.tileCount with status := "VALIDATED_WITH_NO_RESULTS" } },
            incPass c)
        else if hasNoResultsMessage then
          ({ r2 with
              status := "PASSED",
              error := some ("No visible tiles but message is not the expected one: "
                ++ (tv.noResultsText.getD "").take 100),
              tileCount := { r2.tileCount with status := "HAS_MESSAGE_BUT_NOT_EXPECTED" } },
            incPass c)
        else
          ({ r2 with
              status := "PASSED",
              error := some "Expected: No visible tiles found for this combination",
              tileCount := { r2.tileCount with status := "NO_VISIBLE_TILES" } },
            incPass c)

/-! ## Liveness monitor: `recoverFromStuckState` / `hardRestart`
(part_000 lines 2416-2446) -/

/-- Observable side effects of a recovery pass. -/
structure RecoveryFx where
  hardRestarted : Bool
  flushedLogs : Bool
  quitDriver : Bool
deriving Repr, DecidableEq

/-- `this.maxRetries.stuckRecovery` (part_000 line 2291). -/
def maxStuckRecovery : Nat := 2

/-- `hardRestart` (part_000 lines 2441-2446): flush the buffered validation
log and quit (discard) the browser session. -/
def hardRestartFx : RecoveryFx := ⟨true, true, true⟩

/-- `recoverFromStuckState` (part_000 lines 2416-2439).  Arguments: whether
the soft-recovery driver calls throw (`recoveryFails`), the re-entrancy
guard `this.isRecovering`, and the counter map `this.retryCounts`.  Returns
the final `isRecovering` flag, the final counters, and the side effects.
Line 2419 increments `retryCounts.stuckRecovery` unconditionally at the
start of every (non-re-entrant) pass; the hard restart only runs from the
catch block (lines 2430-2434) when the counter has reached
`maxStuckRecovery`; the finally block (lines 2435-2438) clears the guard. -/
def recoverFromStuckState (recoveryFails : Bool) (isRecovering : Bool)
    (counts : String → Nat) : Bool × (String → Nat) × RecoveryFx :=
  if isRecovering then (isRecovering, counts, ⟨false, false, false⟩)
  else
    let c1 := updateCount counts "stuckRecovery" (counts "stuckRecovery" + 1)
    let fx := if recoveryFails ∧ c1 "stuckRecovery" ≥ maxStuckRecovery
              then hardRestartFx else ⟨false, false, false⟩
    (false, c1, fx)

/-- **C9 counterexample**: the claim says the `stuckRecovery` counter "is
not incremented when a soft recovery succeeds".  In the code the increment
(line 2419) happens before the try block, on every non-re-entrant pass:
starting from a counter of 0, a *successful* soft recovery leaves the
counter at 1, not 0. -/
theorem stuckRecovery_incremented_despite_success :
    (recoverFromStuckState false false (fun _ => 0)).2.1 "stuckRecovery" = 1
      ∧ (recoverFromStuckState false false (fun _ => 0)).2.2.hardRestarted = false := by
  constructor <;> rfl

/-- **C9 amended**: the `stuckRecovery` counter is incremented by exactly
one on *every* non-re-entrant soft-recovery pass, successful or not; it is
distinct from the per-operation retry counters (no other key changes); the
monitor escalates to `hardRestart` — which flushes buffered logs and
discards the browser session — exactly when the soft recovery fails with
the incremented counter at its maximum of 2 or beyond; and a pass started
while a recovery is already running is a no-op (re-entrancy guard). -/
theorem stuckRecovery_semantics (recoveryFails : Bool) (counts : String → Nat) :
    (recoverFromStuckState recoveryFails false counts).2.1 "stuckRecovery"
        = counts "stuckRecovery" + 1
      ∧ (∀ k, k ≠ "stuckRecovery" →
          (recoverFromStuckState recoveryFails false counts).2.1 k = counts k)
      ∧ ((recoverFromStuckState recoveryFails false counts).2.2 = hardRestartFx ↔
          (recoveryFails = true ∧ counts "stuckRecovery" + 1 ≥ maxStuckRecovery))
      ∧ ((recoverFromStuckState recoveryFails false counts).2.2.hardRestarted = true →
          (recoverFromStuckState recoveryFails false counts).2.2.flushedLogs = true
            ∧ (recoverFromStuckState recoveryFails false counts).2.2.quitDriver = true)
      ∧ recoverFromStuckState recoveryFails true counts
          = (true, counts, ⟨false, false, false⟩) := by
  refine ⟨?_, ?_, ?_, ?_, ?_⟩
  · simp [recoverFromStuckState, updateCount]
  · intro k hk
    simp [recoverFromStuckState, updateCount, hk]
  · by_cases hf : recoveryFails = true <;>
      by_cases hm : counts "stuckRecovery" + 1 ≥ maxStuckRecovery <;>
        simp [recoverFromStuckState, updateCount, hardRestartFx, hf, hm]
  · intro h
    by_cases hf : recoveryFails = true <;>
      by_cases hm : counts "stuckRecovery" + 1 ≥ maxStuckRecovery <;>
        simp [recoverFromStuckState, updateCount, hardRestartFx, hf, hm] at h ⊢
  · simp [recoverFromStuckState]

/-- Witness for C9's amended theorem: a failing recovery starting with the
counter at 1 escalates (counter reaches the maximum 2), flushing logs and
quitting the driver, and only the `stuckRecovery` key changes. -/
theorem stuckRecovery_semantics_witness :
    (recoverFromStuckState true false (fun _ => 1)).2.1 "stuckRecovery" = 2
      ∧ (recoverFromStuckState true false (fun _ => 1)).2.1 "navigation" = 1
      ∧ (recoverFromStuckState true false (fun _ => 1)).2.2 = hardRestartFx
      ∧ (recoverFromStuckState true false (fun _ => 1)).2.2.flushedLogs = true
      ∧ (recoverFromStuckState true false (fun _ => 1)).2.2.quitDriver = true := by
  have h := stuckRecovery_semantics true (fun _ => 1)
  have hhr : (recoverFromStuckState true false (fun _ => 1)).2.2 = hardRestartFx :=
    h.2.2.1.mpr ⟨rfl, by decide⟩
  have hfx := h.2.2.2.1 (by rw [hhr]; rfl)
  exact ⟨h.1, h.2.1 "navigation" (by decide), hhr, hfx.1, hfx.2⟩

/-! ## Helper lemmas about the classifier -/

/-- The entries the verification loop pushes when every dropdown re-reads
correctly, starting at dropdown index `i`. -/
def mkOptEntries : Nat → List Opt → List OptEntry
  | _, [] => []
  | i, o :: tl =>
    ⟨"Dropdown " ++ toString (i + 1), o.value, o.text⟩ :: mkOptEntries (i + 1) tl

theorem verifySelections_of_match (s : PageState) :
    ∀ (sel : List Opt) (i : Nat),
      (∀ j o, sel.get? j = some o → pageValue s (i + j) = some o.value) →
      verifySelections s sel i = (mkOptEntries i sel, none) := by
  intro sel
  induction sel with
  | nil => intro i _; rfl
  | cons o tl ih =>
    intro i h
    have h0 : pageValue s i = some o.value := by
      have := h 0 o rfl
      simpa [pageValue] using this
    simp only [verifySelections, if_pos h0, mkOptEntries]
    rw [ih (i + 1) (fun j o2 hj => by
      have := h (j + 1) o2 (by simpa using hj)
      rwa [show i + (j + 1) = i + 1 + j from by omega] at this)]

theorem verifySelections_none_match (s : PageState) :
    ∀ (sel : List Opt) (i : Nat),
      (verifySelections s sel i).2 = none →
      ∀ j o, sel.get? j = some o → pageValue s (i + j) = some o.value := by
  intro sel
  induction sel with
  | nil => intro i _ j o hj; simp at hj
  | cons o tl ih =>
    intro i hnone j o2 hj
    by_cases h0 : pageValue s i = some o.value
    · match j with
      | 0 =>
        simp only [List.get?] at hj
        cases hj
        simpa using h0
      | j + 1 =>
        simp only [verifySelections, if_pos h0] at hnone
        have := ih (i + 1) hnone j o2 (by simpa using hj)
        rwa [show i + 1 + j = i + (j + 1) from by omega] at this
    · rw [verifySelections, if_neg h0] at hnone
      simp at hnone

/-- When fewer than 2 tiles are visible, the sort validation returns without
ever reaching the sort-controls script: it cannot throw and the sort
comparison is not executed. -/
theorem sortByRest_ok_of_lt2 (env : Env) (sel : List Opt) (tv : TileValidation)
    (s : PageState) (h : tv.visible < 2) :
    ∃ sv, sortByRest env sel tv s = .ok (sv, false) := by
  unfold sortByRest
  by_cases h1 : isProblematicCombo sel ∧ tv.visible = 0
  · rw [if_pos h1]; exact ⟨_, rfl⟩
  · rw [if_neg h1, if_pos h]; exact ⟨_, rfl⟩

theorem sortBy_ok_of_lt2 (env : Env) (sel : List Opt) (tv : TileValidation)
    (s : PageState) (h : tv.visible < 2) :
    ∃ sv, validateSortByForVisibleTiles env sel tv s = .ok (sv, false) := by
  unfold validateSortByForVisibleTiles
  obtain ⟨sv, hsv⟩ := sortByRest_ok_of_lt2 env sel tv s h
  by_cases h1 : tv.hasNoResultsMessage = true ∧ tv.visible = 0
  · rw [if_pos h1]
    by_cases h2 : (env.noRes s).found = true ∧ (env.noRes s).isVisible = true
    · rw [if_pos h2]; exact ⟨_, rfl⟩
    · rw [if_neg h2]; exact ⟨sv, hsv⟩
  · rw [if_neg h1]; exact ⟨sv, hsv⟩

/-- The sort validation can only throw out of the sort-controls lookup;
if that oracle answers, the whole validation answers. -/
theorem sortBy_ok_of_controls (env : Env) (sel : List Opt) (tv : TileValidation)
    (s : PageState) (sc : SortControlsInfo) (h : env.sortControls s = .ok sc) :
    ∃ svb, validateSortByForVisibleTiles env sel tv s = .ok svb := by
  have hrest : ∃ svb, sortByRest env sel tv s = .ok svb := by
    unfold sortByRest
    by_cases h1 : isProblematicCombo sel ∧ tv.visible = 0
    · rw [if_pos h1]; exact ⟨_, rfl⟩
    · rw [if_neg h1]
      by_cases h2 : tv.visible < 2
      · rw [if_pos h2]; exact ⟨_, rfl⟩
      · rw [if_neg h2]
        simp only [h]
        split
        · exact ⟨_, rfl⟩
        · exact ⟨_, rfl⟩
  unfold validateSortByForVisibleTiles
  obtain ⟨svb, hsvb⟩ := hrest
  by_cases h1 : tv.hasNoResultsMessage = true ∧ tv.visible = 0
  · rw [if_pos h1]
    by_cases h2 : (env.noRes s).found = true ∧ (env.noRes s).isVisible = true
    · rw [if_pos h2]; exact ⟨_, rfl⟩
    · rw [if_neg h2]; exact ⟨svb, hsvb⟩
  · rw [if_neg h1]; exact ⟨svb, hsvb⟩

/-- Every run of `testSingleCombination` updates the counters by exactly
`incPass` or exactly `incFail`. -/
theorem testSingleCombination_counters (env : Env) (sel : List Opt) (n : Nat)
    (s : PageState) (c : Counters) :
    (testSingleCombination env sel n s c).2 = incPass c
      ∨ (testSingleCombination env sel n s c).2 = incFail c := by
  unfold testSingleCombination
  cases hv : (verifySelections s sel 0).2 with
  | some msg => right; simp [hv]
  | none =>
    cases ht : validateTileCount env s with
    | error msg => right; simp [hv, ht]
    | ok tv =>
      cases hs : validateSortByForVisibleTiles env sel tv s with
      | error msg => right; simp [hv, ht, hs]
      | ok p =>
        obtain ⟨sv, b⟩ := p
        left
        simp only [hv, ht, hs]
        split
        · rfl
        · split
          · rfl
          · split
            · rfl
            · rfl

/-- When verification succeeds and both observation oracles answer, the
classifier lands in one of the four passing branches. -/
theorem testSingleCombination_passed (env : Env) (sel : List Opt) (n : Nat)
    (s : PageState) (c : Counters) (tv : TileValidation) (svb : SortResult × Bool)
    (hv : (verifySelections s sel 0).2 = none)
    (ht : validateTileCount env s = .ok tv)
    (hs : validateSortByForVisibleTiles env sel tv s = .ok svb) :
    (testSingleCombination env sel n s c).1.status = "PASSED"
      ∧ (testSingleCombination env sel n s c).2 = incPass c := by
  obtain ⟨sv, b⟩ := svb
  unfold testSingleCombination
  simp only [hv, ht, hs]
  constructor
  · split
    · rfl
    · split
      · rfl
      · split
        · rfl
        · rfl
  · split
    · rfl
    · split
      · rfl
      · split
        · rfl
        · rfl

/-- `validateTileCount` under a "no results" observation: 0 visible tiles,
the banner flag set, and the canonical text (also reported by the re-check
script, which may rewrite the banner text when hidden tiles exist). -/
theorem validateTileCount_noresults (env : Env) (s : PageState) (raw : RawTileData)
    (hobs : env.tileObs s = .ok raw) (h0 : raw.visible = 0)
    (h1 : raw.hasNoResultsMessage = true) (h2 : raw.noResultsText = some noItemsMsg)
    (hrc1 : (env.recheck s).hasNoResultsMessage = true)
    (hrc2 : (env.recheck s).noResultsText = noItemsMsg) :
    ∃ total, validateTileCount env s
      = .ok ⟨total, 0, true, some noItemsMsg, "NO_TILES_WITH_MESSAGE"⟩ := by
  unfold validateTileCount
  rw [hobs]
  by_cases htot : 0 < raw.total
  · by_cases hh : 0 < (env.recheck s).hiddenTilesCount
    · refine ⟨(env.recheck s).allTilesCount, ?_⟩
      simp [h0, h1, h2, htot, hh, hrc1, hrc2]
    · refine ⟨raw.total, ?_⟩
      simp [h0, h1, h2, htot, hh]
  · refine ⟨raw.total, ?_⟩
    simp [h0, h1, h2, htot]

/-- `validateTileCount` under an empty observation: 0 visible tiles and no
"no results" banner at all. -/
theorem validateTileCount_nomsg (env : Env) (s : PageState) (raw : RawTileData)
    (hobs : env.tileObs s = .ok raw) (h0 : raw.visible = 0)
    (h1 : raw.hasNoResultsMessage = false) :
    validateTileCount env s
      = .ok ⟨raw.total, 0, raw.hasNoResultsMessage, raw.noResultsText, "NO_VISIBLE_TILES"⟩ := by
  unfold validateTileCount
  rw [hobs]
  simp [h0, h1]

/-- `validateTileCount` with at least one visible tile. -/
theorem validateTileCount_visible (env : Env) (s : PageState) (raw : RawTileData)
    (hobs : env.tileObs s = .ok raw) (h0 : raw.visible > 0) :
    validateTileCount env s
      = .ok ⟨raw.total, raw.visible, raw.hasNoResultsMessage, raw.noResultsText,
          "VALIDATED"⟩ := by
  unfold validateTileCount
  rw [hobs]
  have hne : ¬(raw.visible = 0) := by omega
  simp [hne, h0]

/-- Classification when 0 tiles are visible and the canonical banner is
present: the `VALIDATED_WITH_NO_RESULTS` passing branch
(part_000 lines 3569-3581). -/
theorem tsc_classify_noresults (env : Env) (sel : List Opt) (n : Nat) (s : PageState)
    (c : Counters) (tv : TileValidation) (sv : SortResult) (b : Bool)
    (hv : (verifySelections s sel 0).2 = none)
    (ht : validateTileCount env s = .ok tv)
    (hs : validateSortByForVisibleTiles env sel tv s = .ok (sv, b))
    (hvis : tv.visible = 0) (hmsg : tv.hasNoResultsMessage = true)
    (htxt : tv.noResultsText = some noItemsMsg) :
    (testSingleCombination env sel n s c).1.status = "PASSED"
      ∧ (testSingleCombination env sel n s c).1.tileCount.status
          = "VALIDATED_WITH_NO_RESULTS" := by
  have hinc : strIncludes noItemsMsg noItemsMsg = true := by decide
  unfold testSingleCombination
  simp [hv, ht, hs, hvis, hmsg, htxt, hinc]

/-- Classification when 0 tiles are visible and no banner at all is present:
the `NO_VISIBLE_TILES` passing branch (part_000 lines 3595-3606). -/
theorem tsc_classify_nomsg (env : Env) (sel : List Opt) (n : Nat) (s : PageState)
    (c : Counters) (tv : TileValidation) (sv : SortResult) (b : Bool)
    (hv : (verifySelections s sel 0).2 = none)
    (ht : validateTileCount env s = .ok tv)
    (hs : validateSortByForVisibleTiles env sel tv s = .ok (sv, b))
    (hvis : tv.visible = 0) (hmsg : tv.hasNoResultsMessage = false) :
    (testSingleCombination env sel n s c).1.status = "PASSED"
      ∧ (testSingleCombination env sel n s c).1.tileCount.status
          = "NO_VISIBLE_TILES" := by
  unfold testSingleCombination
  simp [hv, ht, hs, hvis, hmsg]

/-- A selection-verification mismatch anywhere makes the combination
`FAILED` (the throw at part_000 line 3510 reaches the catch block). -/
theorem tsc_failed_of_mismatch (env : Env) (sel : List Opt) (n : Nat) (s : PageState)
    (c : Counters) (j : Nat) (o : Opt)
    (hj : sel.get? j = some o) (hmm : ¬pageValue s j = some o.value) :
    (testSingleCombination env sel n s c).1.status = "FAILED" := by
  cases hv : (verifySelections s sel 0).2 with
  | none =>
    exact absurd (by simpa using verifySelections_none_match s sel 0 hv j o hj) hmm
  | some msg =>
    unfold testSingleCombination
    simp [hv, markFailed]

/-- **C2** (verdict distinguishability) for `testSingleCombination`
(part_000 lines 3463-3637).  The spec-level verdicts correspond to the
code's result fields as follows: `PASSED_NO_RESULTS_EXPECTED` is
`status = "PASSED"` with `tileCount.status = "VALIDATED_WITH_NO_RESULTS"`;
`PASSED_NO_VISIBLE_TILES` is `status = "PASSED"` with
`tileCount.status = "NO_VISIBLE_TILES"`; `FAILED` is `status = "FAILED"`.
Conjunct 1: 0 visible tiles plus the exact canonical banner give the
no-results-expected passing verdict.  Conjunct 2: 0 visible tiles and no
banner give the empty-state passing verdict.  Conjunct 3: a re-verified
dropdown value differing from the assigned option value gives `FAILED`.
Conjunct 4 (the "exactly" direction): when every re-verification matches
and no observation script throws, the result is `PASSED`, never `FAILED`. -/
theorem testSingleCombination_verdicts :
    (∀ (env : Env) (sel : List Opt) (n : Nat) (s : PageState) (c : Counters)
        (raw : RawTileData),
      (∀ j o, sel.get? j = some o → pageValue s j = some o.value) →
      env.tileObs s = .ok raw → raw.visible = 0 → raw.hasNoResultsMessage = true →
      raw.noResultsText = some noItemsMsg →
      (env.recheck s).hasNoResultsMessage = true →
      (env.recheck s).noResultsText = noItemsMsg →
      (testSingleCombination env sel n s c).1.status = "PASSED"
        ∧ (testSingleCombination env sel n s c).1.tileCount.status
            = "VALIDATED_WITH_NO_RESULTS")
    ∧ (∀ (env : Env) (sel : List Opt) (n : Nat) (s : PageState) (c : Counters)
        (raw : RawTileData),
      (∀ j o, sel.get? j = some o → pageValue s j = some o.value) →
      env.tileObs s = .ok raw → raw.visible = 0 → raw.hasNoResultsMessage = false →
      (testSingleCombination env sel n s c).1.status = "PASSED"
        ∧ (testSingleCombination env sel n s c).1.tileCount.status
            = "NO_VISIBLE_TILES")
    ∧ (∀ (env : Env) (sel : List Opt) (n : Nat) (s : PageState) (c : Counters)
        (j : Nat) (o : Opt),
      sel.get? j = some o → ¬pageValue s j = some o.value →
      (testSingleCombination env sel n s c).1.status = "FAILED")
    ∧ (∀ (env : Env) (sel : List Opt) (n : Nat) (s : PageState) (c : Counters)
        (raw : RawTileData) (sc : SortControlsInfo),
      (∀ j o, sel.get? j = some o → pageValue s j = some o.value) →
      env.tileObs s = .ok raw → env.sortControls s = .ok sc →
      (testSingleCombination env sel n s c).1.status = "PASSED") := by
  refine ⟨?_, ?_, ?_, ?_⟩
  · intro env sel n s c raw hmatch hobs h0 h1 h2 hrc1 hrc2
    have hv : (verifySelections s sel 0).2 = none := by
      rw [verifySelections_of_match s sel 0 (fun j o hj => by simpa using hmatch j o hj)]
    obtain ⟨total, ht⟩ := validateTileCount_noresults env s raw hobs h0 h1 h2 hrc1 hrc2
    obtain ⟨sv, hs⟩ := sortBy_ok_of_lt2 env sel
      ⟨total, 0, true, some noItemsMsg, "NO_TILES_WITH_MESSAGE"⟩ s Nat.zero_lt_two
    exact tsc_classify_noresults env sel n s c _ sv false hv ht hs rfl rfl rfl
  · intro env sel n s c raw hmatch hobs h0 h1
    have hv : (verifySelections s sel 0).2 = none := by
      rw [verifySelections_of_match s sel 0 (fun j o hj => by simpa using hmatch j o hj)]
    have ht := validateTileCount_nomsg env s raw hobs h0 h1
    obtain ⟨sv, hs⟩ := sortBy_ok_of_lt2 env sel
      ⟨raw.total, 0, raw.hasNoResultsMessage, raw.noResultsText, "NO_VISIBLE_TILES"⟩
      s Nat.zero_lt_two
    exact tsc_classify_nomsg env sel n s c _ sv false hv ht hs rfl (by simp [h1])
  · intro env sel n s c j o hj hmm
    exact tsc_failed_of_mismatch env sel n s c j o hj hmm
  · intro env sel n s c raw sc hmatch hobs hsc
    have hv : (verifySelections s sel 0).2 = none := by
      rw [verifySelections_of_match s sel 0 (fun j o hj => by simpa using hmatch j o hj)]
    have ht : ∃ tv, validateTileCount env s = .ok tv := by
      unfold validateTileCount
      rw [hobs]
      exact ⟨_, rfl⟩
    obtain ⟨tv, ht⟩ := ht
    obtain ⟨svb, hs⟩ := sortBy_ok_of_controls env sel tv s sc hsc
    exact (testSingleCombination_passed env sel n s c tv svb hv ht hs).1

/-- A driver environment whose every oracle answers benignly. -/
def baseEnv : Env where
  selOk := fun _ _ => true
  tileObs := fun _ => .ok ⟨0, 0, false, none⟩
  recheck := fun _ => ⟨0, 0, false, ""⟩
  noRes := fun _ => ⟨false, false, "", ""⟩
  sortControls := fun _ => .ok ⟨false, 0⟩
  boltTileTitles := fun _ => []
  sortControlCount := fun _ => 0

/-- A page showing 0 tiles and the canonical "no results" banner. -/
def noResultsEnv : Env :=
  { baseEnv with
      tileObs := fun _ => .ok ⟨0, 0, true, some noItemsMsg⟩,
      recheck := fun _ => ⟨0, 0, true, noItemsMsg⟩ }

/-- A page showing exactly one visible tile. -/
def oneTileEnv : Env :=
  { baseEnv with tileObs := fun _ => .ok ⟨1, 1, false, none⟩ }

/-- Witness for C2: each of the four conjuncts at a concrete page state. -/
theorem testSingleCombination_verdicts_witness :
    ((testSingleCombination noResultsEnv [] 1 [] ⟨0, 0, 0⟩).1.status = "PASSED"
      ∧ (testSingleCombination noResultsEnv [] 1 [] ⟨0, 0, 0⟩).1.tileCount.status
          = "VALIDATED_WITH_NO_RESULTS")
    ∧ ((testSingleCombination baseEnv [] 2 [] ⟨0, 0, 0⟩).1.status = "PASSED"
      ∧ (testSingleCombination baseEnv [] 2 [] ⟨0, 0, 0⟩).1.tileCount.status
          = "NO_VISIBLE_TILES")
    ∧ (testSingleCombination baseEnv [⟨"a", "A", 0⟩] 3 [] ⟨0, 0, 0⟩).1.status = "FAILED"
    ∧ (testSingleCombination baseEnv [] 4 ["x"] ⟨0, 0, 0⟩).1.status = "PASSED" := by
  refine ⟨?_, ?_, ?_, ?_⟩
  · exact testSingleCombination_verdicts.1 noResultsEnv [] 1 [] ⟨0, 0, 0⟩
      ⟨0, 0, true, some noItemsMsg⟩ (fun j o h => by simp at h) rfl rfl rfl rfl rfl rfl
  · exact testSingleCombination_verdicts.2.1 baseEnv [] 2 [] ⟨0, 0, 0⟩
      ⟨0, 0, false, none⟩ (fun j o h => by simp at h) rfl rfl rfl
  · exact testSingleCombination_verdicts.2.2.1 baseEnv [⟨"a", "A", 0⟩] 3 [] ⟨0, 0, 0⟩
      0 ⟨"a", "A", 0⟩ rfl (by simp [pageValue])
  · exact testSingleCombination_verdicts.2.2.2 baseEnv [] 4 ["x"] ⟨0, 0, 0⟩
      ⟨0, 0, false, none⟩ ⟨false, 0⟩ (fun j o h => by simp at h) rfl rfl

/-- The exact result of the sort validation on a single visible tile:
the insufficient-tiles `NOT_APPLICABLE` outcome of part_000 lines
3189-3198, with the sort-comparison script not executed. -/
theorem sortBy_single_tile (env : Env) (sel : List Opt) (tv : TileValidation)
    (s : PageState) (h : tv.visible = 1) :
    validateSortByForVisibleTiles env sel tv s
      = .ok ({ emptySortResult with
          status := "NOT_APPLICABLE",
          reason := "Insufficient tiles for sort validation (need at least 2 tiles)",
          tilesToSort := tv.visible,
          sortValidationCondition := "Insufficient tiles (< 2) for sort validation" },
        false) := by
  unfold validateSortByForVisibleTiles sortByRest
  have h1 : ¬(tv.hasNoResultsMessage = true ∧ tv.visible = 0) := by
    rintro ⟨_, h0⟩; omega
  have h2 : ¬(isProblematicCombo sel ∧ tv.visible = 0) := by
    rintro ⟨_, h0⟩; omega
  rw [if_neg h1, if_neg h2, if_pos (by omega : tv.visible < 2)]

/-- **C8** (sort-validation applicability).  Conjunct 1: on a combination
whose tile observation reports exactly 1 visible tile, the sort validation
returns `NOT_APPLICABLE` with the insufficient-tiles reason, marked
not-applicable, and the sort-order comparison script is never run (second
component `false`).  Conjunct 2: such a combination is classified `PASSED`
(its `sortByValidation.status` being `NOT_APPLICABLE`), never as a
failure. -/
theorem sortValidation_single_tile :
    (∀ (env : Env) (sel : List Opt) (tv : TileValidation) (s : PageState),
      tv.visible = 1 →
      validateSortByForVisibleTiles env sel tv s
        = .ok ({ emptySortResult with
            status := "NOT_APPLICABLE",
            reason := "Insufficient tiles for sort validation (need at least 2 tiles)",
            tilesToSort := tv.visible,
            sortValidationCondition := "Insufficient tiles (< 2) for sort validation" },
          false))
    ∧ (∀ (env : Env) (sel : List Opt) (n : Nat) (s : PageState) (c : Counters)
        (raw : RawTileData),
      (∀ j o, sel.get? j = some o → pageValue s j = some o.value) →
      env.tileObs s = .ok raw → raw.visible = 1 →
      (testSingleCombination env sel n s c).1.status = "PASSED"
        ∧ (testSingleCombination env sel n s c).1.sortByValidation.status
            = "NOT_APPLICABLE") := by
  constructor
  · intro env sel tv s h
    exact sortBy_single_tile env sel tv s h
  · intro env sel n s c raw hmatch hobs h1
    have hv : (verifySelections s sel 0).2 = none := by
      rw [verifySelections_of_match s sel 0 (fun j o hj => by simpa using hmatch j o hj)]
    have ht := validateTileCount_visible env s raw hobs (by omega)
    rw [h1] at ht
    have hs := sortBy_single_tile env sel
      ⟨raw.total, 1, raw.hasNoResultsMessage, raw.noResultsText, "VALIDATED"⟩ s rfl
    unfold testSingleCombination
    simp [hv, ht, hs]

/-- Witness for C8 at a concrete one-tile page. -/
theorem sortValidation_single_tile_witness :
    validateSortByForVisibleTiles baseEnv [] ⟨1, 1, false, none, "VALIDATED"⟩ []
        = .ok ({ emptySortResult with
            status := "NOT_APPLICABLE",
            reason := "Insufficient tiles for sort validation (need at least 2 tiles)",
            tilesToSort := 1,
            sortValidationCondition := "Insufficient tiles (< 2) for sort validation" },
          false)
      ∧ (testSingleCombination oneTileEnv [] 1 [] ⟨0, 0, 0⟩).1.status = "PASSED"
      ∧ (testSingleCombination oneTileEnv [] 1 [] ⟨0, 0, 0⟩).1.sortByValidation.status
          = "NOT_APPLICABLE" := by
  refine ⟨?_, ?_⟩
  · exact sortValidation_single_tile.1 baseEnv [] ⟨1, 1, false, none, "VALIDATED"⟩ [] rfl
  · have h := sortValidation_single_tile.2 oneTileEnv [] 1 [] ⟨0, 0, 0⟩
      ⟨1, 1, false, none⟩ (fun j o hj => by simp at hj) rfl rfl
    exact ⟨h.1, h.2⟩

/-- **C10** (counter invariant): every call to `testSingleCombination`
increments `totalTests` by exactly 1 and exactly one of `passedTests` /
`failedTests` by exactly 1 (the increments at part_000 lines 3562-3563,
3574-3575, 3587-3588, 3600-3601 on the passing branches and 3625-3626 in
the catch block), so `totalTests = passedTests + failedTests` is preserved
across every combination on both the success and the error path. -/
theorem testSingleCombination_counter_invariant (env : Env) (sel : List Opt)
    (n : Nat) (s : PageState) (c : Counters) :
    (testSingleCombination env sel n s c).2.totalTests = c.totalTests + 1
      ∧ (((testSingleCombination env sel n s c).2.passedTests = c.passedTests + 1
            ∧ (testSingleCombination env sel n s c).2.failedTests = c.failedTests)
          ∨ ((testSingleCombination env sel n s c).2.failedTests = c.failedTests + 1
            ∧ (testSingleCombination env sel n s c).2.passedTests = c.passedTests))
      ∧ (c.totalTests = c.passedTests + c.failedTests →
          (testSingleCombination env sel n s c).2.totalTests
            = (testSingleCombination env sel n s c).2.passedTests
              + (testSingleCombination env sel n s c).2.failedTests) := by
  rcases testSingleCombination_counters env sel n s c with h | h <;> rw [h]
  · exact ⟨rfl, Or.inl ⟨rfl, rfl⟩, fun hinv => by simp [incPass]; omega⟩
  · exact ⟨rfl, Or.inr ⟨rfl, rfl⟩, fun hinv => by simp [incFail]; omega⟩

/-- Witness for C10 at a concrete combination, with the invariant's
antecedent discharged at the zeroed counters. -/
theorem testSingleCombination_counter_invariant_witness :
    (testSingleCombination baseEnv [] 1 [] ⟨0, 0, 0⟩).2.totalTests = 0 + 1
      ∧ (testSingleCombination baseEnv [] 1 [] ⟨0, 0, 0⟩).2.totalTests
          = (testSingleCombination baseEnv [] 1 [] ⟨0, 0, 0⟩).2.passedTests
            + (testSingleCombination baseEnv [] 1 [] ⟨0, 0, 0⟩).2.failedTests :=
  ⟨(testSingleCombination_counter_invariant baseEnv [] 1 [] ⟨0, 0, 0⟩).1,
    (testSingleCombination_counter_invariant baseEnv [] 1 [] ⟨0, 0, 0⟩).2.2 rfl⟩

/-! ## The combination enumerator
(`testAllCombinations` / `testCombosRecursive` / `resetNextDropdowns`,
part_000 lines 2732-2791; `selectDropdownOption`, lines 2685-2711)

Besides the result list, the page state and the counters, the embedding
returns a *trace* of the selection events applied to the page, which the
reset-between-siblings theorem quantifies over.  The trace is
instrumentation only: no embedded function reads it. -/

/-- One mutation of the page: an enumeration selection (`sel`) or a
reset-to-default selection issued by `resetNextDropdowns` (`rsel`); in both
cases dropdown `d`'s value becomes `o.value`. -/
inductive Ev where
  | sel (d : Nat) (o : Opt)
  | rsel (d : Nat) (o : Opt)
deriving Repr, DecidableEq

/-- The dropdown index an event writes to. -/
def evTarget : Ev → Nat
  | .sel d _ => d
  | .rsel d _ => d

/-- Apply one event to the page. -/
def applyEv (s : PageState) : Ev → PageState
  | .sel d o => s.set d o.value
  | .rsel d o => s.set d o.value

/-- Apply a trace of events to the page, left to right. -/
def applyTrace (s : PageState) (T : List Ev) : PageState := T.foldl applyEv s

/-- `selectDropdownOption` (part_000 lines 2685-2711): sets the select's
value, dispatches events, re-reads and verifies.  On success it resolves
with `true` and the mutated page; on persistent failure its
`executeWithRetry` wrapper (`maxRetries.selection = 2`) exhausts and
*throws* — the function never fulfills with `false` (proved in the C3
theorem below).  A failed selection leaves the modelled page unchanged. -/
def selectDropdownOption (env : Env) (s : PageState) (d : Nat) (o : Opt) :
    Except String (Bool × PageState) :=
  if env.selOk d o then .ok (true, s.set d o.value)
  else .error "selection failed after 2 attempts"

/-- `resetNextDropdowns(dropdownElements, optionsArray, startIdx)`
(part_000 lines 2781-2791): for each dropdown from `startIdx` on, re-read
its options and select the empty-value-or-first default; the per-dropdown
try/catch swallows both the no-options throw and selection failures.  The
first argument is `optionsArray.drop startIdx` (the options of the
dropdowns still to reset); an `rsel` event is recorded for each reset that
actually lands. -/
def resetNextDropdowns (env : Env) : List (List Opt) → Nat → PageState →
    PageState × List Ev
  | [], _, s => (s, [])
  | opts :: tl, i, s =>
    match defaultOption opts with
    | none => resetNextDropdowns env tl (i + 1) s
    | some o =>
      if env.selOk i o then
        let r := resetNextDropdowns env tl (i + 1) (s.set i o.value)
        (r.1, .rsel i o :: r.2)
      else
        resetNextDropdowns env tl (i + 1) s

/-- Result of an enumeration step: accumulated results, page state, trace,
counters. -/
abbrev EnumSt := List CombResult × PageState × List Ev × Counters

/-- The `for (let i = 0; ...)` loop of `testCombosRecursive` (part_000
lines 2760-2778), parametric in the recursion `recur` for the remaining
dropdowns `tl`.  A thrown selection error propagates (the `await` in the
`if` condition rejects).  The loop resets the downstream dropdowns between
sibling options (line 2766: only when the current option is not the last
and the current dropdown is not the last).  The `.ok (false, _)` branch is
the source's `else` arm (lines 2769-2777), which records a synthetic
`FAILED` result; it is unreachable because `selectDropdownOption` never
fulfills with `false` (its JS `options` field holds the raw option objects;
they are projected to value/text here). -/
def combosLoop (env : Env) (idx : Nat) (tl : List (List Opt))
    (recur : List Opt → List CombResult → PageState → Counters →
      Except String EnumSt)
    (cur : List Opt) : List Opt → List CombResult → PageState → Counters →
      Except String EnumSt
  | [], results, s, c => .ok (results, s, [], c)
  | o :: restOpts, results, s, c =>
    match selectDropdownOption env s idx o with
    | .error e => .error e
    | .ok (true, s1) =>
      match recur (cur ++ [o]) results s1 c with
      | .error e => .error e
      | .ok (results1, s2, T1, c1) =>
        let rt := if restOpts ≠ [] ∧ tl ≠ []
                  then resetNextDropdowns env tl (idx + 1) s2 else (s2, [])
        match combosLoop env idx tl recur cur restOpts results1 rt.1 c1 with
        | .error e => .error e
        | .ok (results2, s4, T3, c2) =>
          .ok (results2, s4, Ev.sel idx o :: (T1 ++ rt.2 ++ T3), c2)
    | .ok (false, s1) =>
      let n := results.length + 1
      let r : CombResult :=
        ⟨"Combo " ++ toString n, n,
          (cur ++ [o]).map (fun q => ⟨"", q.value, q.text⟩),
          "FAILED",
          some ("Failed to select \"" ++ o.text ++ "\" in dropdown "
            ++ toString (idx + 1)),
          initTileCount, initSortBy⟩
      combosLoop env idx tl recur cur restOpts (results ++ [r]) s1 c

/-- `testCombosRecursive(dropdownElements, optionsArray, idx,
currentSelection, results)` (part_000 lines 2753-2779).  The first argument
is `optionsArray.drop idx` (the option lists of the dropdowns still to
assign); at a leaf (line 2754: `idx >= optionsArray.length`) the
combination is classified by `testSingleCombination` and appended. -/
def testCombosRecursive (env : Env) : List (List Opt) → Nat → List Opt →
    List CombResult → PageState → Counters → Except String EnumSt
  | [], _idx, cur, results, s, c =>
    let rc := testSingleCombination env cur (results.length + 1) s c
    .ok (results ++ [rc.1], s, [], rc.2)
  | opts :: tl, idx, cur, results, s, c =>
    combosLoop env idx tl
      (fun cur2 res2 s2 c2 => testCombosRecursive env tl (idx + 1) cur2 res2 s2 c2)
      cur opts results s c

/-- `testAllCombinations` (part_000 lines 2732-2751): throws on zero
dropdowns or an empty option set, then runs the recursion.  Its
`executeWithRetry` wrapper (`maxRetries.overall = 3`) re-runs the identical
attempt on a deterministic environment, so any inner throw surfaces as the
wrapper's exhaustion error (the counter side effects of such failed
attempts are outside every theorem below, which concern either a successful
first attempt or the thrown message). -/
def testAllCombinations (env : Env) (optionSets : List (List Opt))
    (s : PageState) (c : Counters) : Except String EnumSt :=
  if optionSets.length = 0 then .error "testAllCombinations failed after 3 attempts"
  else if optionSets.any (fun l => l.isEmpty) then
    .error "testAllCombinations failed after 3 attempts"
  else
    match testCombosRecursive env optionSets 0 [] [] s c with
    | .ok st => .ok st
    | .error _ => .error "testAllCombinations failed after 3 attempts"

/-- The Cartesian product of the option sets, in the enumerator's
depth-first left-to-right leaf order. -/
def cartProd : List (List Opt) → List (List Opt)
  | [] => [[]]
  | os :: tl => os.flatMap (fun o => (cartProd tl).map (fun t => o :: t))

/-- An environment on which every selection fails, used to exhibit the
behaviour of the enumerator at a selection failure. -/
def failSelEnv : Env := { baseEnv with selOk := fun _ _ => false }

/-- **C3** (code bug): the claim — matching the spec and the source's own
unreachable `else` arm (lines 2769-2777, "Record failure and continue") —
says a failed selection appends one synthetic `FAILED` result and does not
propagate or abort the remaining sibling options.  In fact
`selectDropdownOption` either fulfills with `true` or *throws* (conjunct 1:
its embedding never yields `ok false`, the only value that would reach the
synthetic-failure arm), so a selection failure rejects the whole
`testCombosRecursive` promise.  Conjunct 2 evaluates the enumerator on a
single dropdown with options `[a, b]` whose selections fail: the error
propagates, option `b` is never attempted, and no synthetic `FAILED`
result is recorded — the result list is lost with the rejection. -/
theorem selection_failure_propagates :
    (∀ (env : Env) (s : PageState) (d : Nat) (o : Opt),
      selectDropdownOption env s d o = .ok (true, s.set d o.value)
        ∨ selectDropdownOption env s d o = .error "selection failed after 2 attempts")
    ∧ testCombosRecursive failSelEnv [[⟨"a", "A", 0⟩, ⟨"b", "B", 1⟩]] 0 [] [] ["z"]
        ⟨0, 0, 0⟩ = .error "selection failed after 2 attempts" := by
  constructor
  · intro env s d o
    unfold selectDropdownOption
    by_cases h : env.selOk d o = true
    · left; rw [if_pos h]
    · right; rw [if_neg h]
  · rfl

/-! ## Closed form of the all-selections-succeed trace

When every selection succeeds, the event trace of the enumerator depends
only on the option sets and the starting index (not on the page state, the
accumulated results or the counters).  `traceSpec`/`loopSpec`/`resetSpec`
give that closed form; the equality with the executed trace is proved in
the enumeration theorem below. -/

/-- Trace of `resetNextDropdowns` when every selection succeeds: one
reset-selection of the default option per non-empty option set. -/
def resetSpec : List (List Opt) → Nat → List Ev
  | [], _ => []
  | opts :: tl, i =>
    (match defaultOption opts with
     | some o => [Ev.rsel i o]
     | none => []) ++ resetSpec tl (i + 1)

/-- Trace of the sibling loop at dropdown `idx`: `sub` is the (uniform)
subtree trace, `rst` the downstream-reset trace, `tl` the remaining
dropdowns (the reset runs only between siblings and only when `tl ≠ []`). -/
def loopSpec (idx : Nat) (sub rst : List Ev) (tl : List (List Opt)) :
    List Opt → List Ev
  | [] => []
  | o :: ro =>
    Ev.sel idx o :: (sub ++ (if ro ≠ [] ∧ tl ≠ [] then rst else [])
      ++ loopSpec idx sub rst tl ro)

/-- Trace of `testCombosRecursive` on the remaining option sets, when every
selection succeeds. -/
def traceSpec : List (List Opt) → Nat → List Ev
  | [], _ => []
  | opts :: tl, idx =>
    loopSpec idx (traceSpec tl (idx + 1)) (resetSpec tl (idx + 1)) tl opts

/-! ### Small lemmas about traces and the page -/

theorem applyTrace_nil (s : PageState) : applyTrace s [] = s := rfl

theorem applyTrace_cons (s : PageState) (e : Ev) (T : List Ev) :
    applyTrace s (e :: T) = applyTrace (applyEv s e) T := rfl

theorem applyTrace_append (s : PageState) (A B : List Ev) :
    applyTrace s (A ++ B) = applyTrace (applyTrace s A) B :=
  List.foldl_append _ _ _ _

theorem applyEv_length (s : PageState) (e : Ev) :
    (applyEv s e).length = s.length := by
  cases e <;> simp [applyEv]

theorem applyTrace_length (T : List Ev) : ∀ s : PageState,
    (applyTrace s T).length = s.length := by
  induction T with
  | nil => intro s; rfl
  | cons e T ih =>
    intro s
    rw [applyTrace_cons, ih, applyEv_length]

theorem pageValue_set_self (s : PageState) (d : Nat) (v : String)
    (h : d < s.length) : pageValue (s.set d v) d = some v := by
  unfold pageValue
  rw [List.get?_set_eq]
  have : s.get? d = some s[d] := List.get?_eq_get h
  rw [this]
  rfl

theorem pageValue_set_ne (s : PageState) (d j : Nat) (v : String)
    (h : j ≠ d) : pageValue (s.set d v) j = pageValue s j := by
  unfold pageValue
  exact List.get?_set_ne v s (fun hh => h hh.symm)

/-- Applying a trace none of whose events targets `j` leaves dropdown `j`'s
value unchanged. -/
theorem applyTrace_pageValue_untouched (T : List Ev) : ∀ (s : PageState) (j : Nat),
    (∀ ev ∈ T, evTarget ev ≠ j) →
    pageValue (applyTrace s T) j = pageValue s j := by
  induction T with
  | nil => intro s j _; rfl
  | cons e T ih =>
    intro s j h
    rw [applyTrace_cons, ih (applyEv s e) j (fun ev hev => h ev (by simp [hev]))]
    cases e with
    | sel d o =>
      exact pageValue_set_ne s d j o.value (fun hj => h (.sel d o) (by simp) (by simp [evTarget, hj]))
    | rsel d o =>
      exact pageValue_set_ne s d j o.value (fun hj => h (.rsel d o) (by simp) (by simp [evTarget, hj]))

/-- Every event of `resetSpec tl i` targets a dropdown in `[i, i + tl.length)`
and is a reset-selection. -/
theorem resetSpec_targets (tl : List (List Opt)) : ∀ (i : Nat) (ev : Ev),
    ev ∈ resetSpec tl i →
    (i ≤ evTarget ev ∧ evTarget ev < i + tl.length ∧ ∃ d o, ev = .rsel d o) := by
  induction tl with
  | nil => intro i ev h; simp [resetSpec] at h
  | cons opts tl ih =>
    intro i ev h
    unfold resetSpec at h
    rw [List.mem_append] at h
    rcases h with h | h
    · cases hd : defaultOption opts with
      | none => rw [hd] at h; simp at h
      | some o =>
        rw [hd] at h
        simp at h
        subst h
        exact ⟨le_refl _, by simp [evTarget], _, _, rfl⟩
    · obtain ⟨h1, h2, h3⟩ := ih (i + 1) ev h
      exact ⟨by omega, by simp; omega, h3⟩

/-- Under an all-success environment, `resetNextDropdowns` applies exactly
`resetSpec` to the page. -/
theorem resetNextDropdowns_spec (env : Env) (hsel : ∀ d o, env.selOk d o = true)
    (tl : List (List Opt)) : ∀ (i : Nat) (s : PageState),
    resetNextDropdowns env tl i s = (applyTrace s (resetSpec tl i), resetSpec tl i) := by
  induction tl with
  | nil => intro i s; rfl
  | cons opts tl ih =>
    intro i s
    unfold resetNextDropdowns resetSpec
    cases hd : defaultOption opts with
    | none => rw [ih (i + 1) s]; simp
    | some o =>
      simp only [hsel i o, if_true, ih]
      simp [applyTrace_append, applyTrace_cons, applyEv]

/-- The value a full reset leaves in dropdown `i + k`: the default option's
value of the `k`-th remaining option set (which exists when that set is
non-empty). -/
theorem resetSpec_apply_default (tl : List (List Opt)) :
    ∀ (i : Nat) (s : PageState) (k : Nat) (opts : List Opt) (o : Opt),
      tl.get? k = some opts → defaultOption opts = some o →
      i + tl.length ≤ s.length →
      pageValue (applyTrace s (resetSpec tl i)) (i + k) = some o.value := by
  induction tl with
  | nil => intro i s k opts o hk; simp at hk
  | cons opts0 tl ih =>
    intro i s k opts o hk hdef hlen
    unfold resetSpec
    match k with
    | 0 =>
      simp only [List.get?] at hk
      cases hk
      rw [hdef]
      rw [applyTrace_append]
      simp only [applyTrace_cons, applyTrace_nil, applyEv]
      have huntouched : ∀ ev ∈ resetSpec tl (i + 1), evTarget ev ≠ i := by
        intro ev hev
        have := (resetSpec_targets tl (i + 1) ev hev).1
        omega
      rw [show i + 0 = i from rfl,
        applyTrace_pageValue_untouched _ _ _ huntouched]
      exact pageValue_set_self s i o.value (by simp at hlen; omega)
    | k + 1 =>
      simp only [List.get?] at hk
      have hmain := ih (i + 1) (applyTrace s ((match defaultOption opts0 with
        | some o => [Ev.rsel i o] | none => []) : List Ev)) k opts o hk hdef
        (by rw [applyTrace_length]; simp at hlen; omega)
      rw [applyTrace_append]
      rw [show i + (k + 1) = (i + 1) + k from by omega]
      exact hmain

/-! ### Cartesian-product and option-entry lemmas -/

theorem cartProd_length (l : List (List Opt)) :
    (cartProd l).length = (l.map List.length).prod := by
  induction l with
  | nil => rfl
  | cons os tl ih =>
    rw [show cartProd (os :: tl)
        = os.flatMap (fun o => (cartProd tl).map (fun t => o :: t)) from rfl,
      List.length_flatMap, List.map_cons, List.prod_cons, ← ih]
    have h2 : List.map (List.length ∘ fun o => List.map (fun t => o :: t) (cartProd tl)) os
        = List.replicate os.length (cartProd tl).length := by
      rw [← List.map_const']
      apply List.map_congr_left
      intro o _
      simp
    rw [h2, List.sum_replicate, smul_eq_mul]

theorem mem_cartProd_cons (os : List Opt) (tl : List (List Opt)) (t : List Opt) :
    t ∈ cartProd (os :: tl) ↔ ∃ o ∈ os, ∃ r ∈ cartProd tl, t = o :: r := by
  simp only [cartProd, List.mem_flatMap, List.mem_map]
  constructor
  · rintro ⟨o, ho, r, hr, rfl⟩; exact ⟨o, ho, r, hr, rfl⟩
  · rintro ⟨o, ho, r, hr, rfl⟩; exact ⟨o, ho, r, hr, rfl⟩

theorem cartProd_cons_flatMap_nodup (tl : List (List Opt))
    (htl : (cartProd tl).Nodup) : ∀ os : List Opt, os.Nodup →
    (os.flatMap (fun o => (cartProd tl).map (fun t => o :: t))).Nodup := by
  intro os
  induction os with
  | nil => intro _; simp
  | cons o os2 ih =>
    intro hnd
    rw [List.flatMap_cons, List.nodup_append]
    rw [List.nodup_cons] at hnd
    refine ⟨htl.map (fun a b hab => by injection hab), ih hnd.2, ?_⟩
    intro x hx hx2
    rw [List.mem_map] at hx
    obtain ⟨r, _, rfl⟩ := hx
    rw [List.mem_flatMap] at hx2
    obtain ⟨o2, ho2, hx2⟩ := hx2
    rw [List.mem_map] at hx2
    obtain ⟨r2, _, heq⟩ := hx2
    have : o2 = o := by injection heq
    exact hnd.1 (this ▸ ho2)

theorem cartProd_nodup (l : List (List Opt)) (h : ∀ os ∈ l, os.Nodup) :
    (cartProd l).Nodup := by
  induction l with
  | nil => simp [cartProd]
  | cons os tl ih =>
    exact cartProd_cons_flatMap_nodup tl
      (ih (fun os2 h2 => h os2 (List.mem_cons_of_mem _ h2)))
      os (h os (List.mem_cons_self _ _))

/-- On members of the Cartesian product, `mkOptEntries` is injective as
long as each dropdown's option values are pairwise distinct. -/
theorem mkOptEntries_injOn (l : List (List Opt))
    (hnd : ∀ os ∈ l, (os.map Opt.value).Nodup) :
    ∀ (i : Nat) (t1 t2 : List Opt), t1 ∈ cartProd l → t2 ∈ cartProd l →
      mkOptEntries i t1 = mkOptEntries i t2 → t1 = t2 := by
  induction l with
  | nil =>
    intro i t1 t2 h1 h2 _
    simp [cartProd] at h1 h2
    rw [h1, h2]
  | cons os tl ih =>
    intro i t1 t2 h1 h2 heq
    rw [mem_cartProd_cons] at h1 h2
    obtain ⟨o1, ho1, r1, hr1, rfl⟩ := h1
    obtain ⟨o2, ho2, r2, hr2, rfl⟩ := h2
    simp only [mkOptEntries, List.cons.injEq, OptEntry.mk.injEq] at heq
    have ho : o1 = o2 :=
      List.inj_on_of_nodup_map (hnd os (List.mem_cons_self _ _)) ho1 ho2 heq.1.2.1
    have hr : r1 = r2 :=
      ih (fun os2 h2 => hnd os2 (List.mem_cons_of_mem _ h2)) (i + 1) r1 r2 hr1 hr2 heq.2
    rw [ho, hr]

/-- The recorded `options` of a combination whose verification succeeds
are exactly the verification loop's entries, whatever the observation
oracles do afterwards. -/
theorem tsc_options (env : Env) (sel : List Opt) (n : Nat) (s : PageState)
    (c : Counters) (es : List OptEntry)
    (hv1 : (verifySelections s sel 0).1 = es)
    (hv2 : (verifySelections s sel 0).2 = none) :
    (testSingleCombination env sel n s c).1.options = es := by
  unfold testSingleCombination
  simp only [hv2, hv1]
  cases ht : validateTileCount env s with
  | error msg => simp [ht, markFailed]
  | ok tv =>
    cases hs : validateSortByForVisibleTiles env sel tv s with
    | error msg => simp [ht, hs, markFailed]
    | ok p =>
      obtain ⟨sv, b⟩ := p
      simp only [ht, hs]
      split
      · rfl
      · split
        · rfl
        · split
          · rfl
          · rfl

/-! ### The enumeration theorem -/

/-- Induction step for the sibling loop, parametric in the recursion for
the deeper dropdowns. -/
theorem combosLoop_spec (env : Env) (hsel : ∀ d o, env.selOk d o = true)
    (idx : Nat) (tl : List (List Opt))
    (recur : List Opt → List CombResult → PageState → Counters →
      Except String EnumSt)
    (Hrec : ∀ (cur2 : List Opt) (res2 : List CombResult) (s2 : PageState)
        (c2 : Counters),
      s2.length = idx + 1 + tl.length → cur2.length = idx + 1 →
      (∀ j o, cur2.get? j = some o → pageValue s2 j = some o.value) →
      ∃ newRes s3 c3,
        recur cur2 res2 s2 c2 = .ok (res2 ++ newRes, s3, traceSpec tl (idx + 1), c3)
          ∧ newRes.map (fun r => r.options)
              = (cartProd tl).map (fun t => mkOptEntries 0 (cur2 ++ t))
          ∧ s3.length = s2.length
          ∧ (∀ j, j < idx + 1 → pageValue s3 j = pageValue s2 j)) :
    ∀ (opts : List Opt) (cur : List Opt) (results : List CombResult)
      (s : PageState) (c : Counters),
      s.length = idx + 1 + tl.length → cur.length = idx →
      (∀ j o, cur.get? j = some o → pageValue s j = some o.value) →
      ∃ newRes s2 c2,
        combosLoop env idx tl recur cur opts results s c
            = .ok (results ++ newRes, s2,
                loopSpec idx (traceSpec tl (idx + 1)) (resetSpec tl (idx + 1)) tl opts,
                c2)
          ∧ newRes.map (fun r => r.options)
              = opts.flatMap
                  (fun o => (cartProd tl).map (fun t => mkOptEntries 0 (cur ++ o :: t)))
          ∧ s2.length = s.length
          ∧ (∀ j, j < idx → pageValue s2 j = pageValue s j) := by
  intro opts
  induction opts with
  | nil =>
    intro cur results s c hslen hcur hmatch
    exact ⟨[], s, c, by simp [combosLoop, loopSpec], by simp, rfl, fun j _ => rfl⟩
  | cons o restOpts ih =>
    intro cur results s c hslen hcur hmatch
    have hsel1 : selectDropdownOption env s idx o = .ok (true, s.set idx o.value) := by
      simp [selectDropdownOption, hsel]
    have hcur2len : (cur ++ [o]).length = idx + 1 := by simp [hcur]
    have hs1len : (s.set idx o.value).length = idx + 1 + tl.length := by
      simp [hslen]
    have hmatch2 : ∀ j o2, (cur ++ [o]).get? j = some o2 →
        pageValue (s.set idx o.value) j = some o2.value := by
      intro j o2 hj
      by_cases hjlt : j < idx
      · rw [List.get?_append (by omega : j < cur.length)] at hj
        rw [pageValue_set_ne s idx j o.value (by omega)]
        exact hmatch j o2 hj
      · by_cases hjeq : j = idx
        · subst hjeq
          have hcat : (cur ++ [o]).get? j = some o := by
            conv_lhs => rw [show j = cur.length from by omega]
            exact List.get?_concat_length cur o
          rw [hcat] at hj
          cases hj
          exact pageValue_set_self s j o.value (by omega)
        · have hnone : (cur ++ [o]).get? j = none := by
            rw [List.get?_eq_none]
            simp [hcur]
            omega
          rw [hnone] at hj
          cases hj
    obtain ⟨newRes1, s3, c3, heq1, hmap1, hlen1, hpres1⟩ :=
      Hrec (cur ++ [o]) results (s.set idx o.value) c hs1len hcur2len hmatch2
    by_cases hc : restOpts ≠ [] ∧ tl ≠ []
    · -- reset between siblings
      have hstep : combosLoop env idx tl recur cur (o :: restOpts) results s c
          = match combosLoop env idx tl recur cur restOpts (results ++ newRes1)
              (applyTrace s3 (resetSpec tl (idx + 1))) c3 with
            | .error e => .error e
            | .ok (results2, s4, T3, c2) =>
              .ok (results2, s4,
                Ev.sel idx o :: (traceSpec tl (idx + 1) ++ resetSpec tl (idx + 1) ++ T3),
                c2) := by
        conv_lhs => rw [combosLoop]
        rw [hsel1]
        simp only [heq1, if_pos hc, resetNextDropdowns_spec env hsel tl (idx + 1) s3]
      have hs3'len : (applyTrace s3 (resetSpec tl (idx + 1))).length
          = idx + 1 + tl.length := by
        rw [applyTrace_length, hlen1, hs1len]
      have hpres3 : ∀ j, j < idx + 1 →
          pageValue (applyTrace s3 (resetSpec tl (idx + 1))) j = pageValue s3 j := by
        intro j hj
        exact applyTrace_pageValue_untouched _ _ _
          (fun ev hev => by have := (resetSpec_targets tl (idx + 1) ev hev).1; omega)
      have hmatch3 : ∀ j o2, cur.get? j = some o2 →
          pageValue (applyTrace s3 (resetSpec tl (idx + 1))) j = some o2.value := by
        intro j o2 hj
        have hjlt : j < idx := by
          have := (List.get?_eq_some.1 hj).choose
          omega
        rw [hpres3 j (by omega), hpres1 j (by omega),
          pageValue_set_ne s idx j o.value (by omega)]
        exact hmatch j o2 hj
      obtain ⟨newRes2, s4, c4, heq2, hmap2, hlen2, hpres2⟩ :=
        ih cur (results ++ newRes1) (applyTrace s3 (resetSpec tl (idx + 1))) c3
          (by rw [hs3'len]) hcur hmatch3
      refine ⟨newRes1 ++ newRes2, s4, c4, ?_, ?_, ?_, ?_⟩
      · rw [hstep, heq2]
        simp [loopSpec, hc, List.append_assoc]
      · simp only [List.map_append, hmap1, hmap2, List.flatMap_cons]
        congr 1
        apply List.map_congr_left
        intro t _
        simp
      · rw [hlen2, hs3'len, hslen]
      · intro j hj
        rw [hpres2 j hj, hpres3 j (by omega), hpres1 j (by omega),
          pageValue_set_ne s idx j o.value (by omega)]
    · -- no reset (last sibling or last dropdown)
      have hstep : combosLoop env idx tl recur cur (o :: restOpts) results s c
          = match combosLoop env idx tl recur cur restOpts (results ++ newRes1) s3 c3 with
            | .error e => .error e
            | .ok (results2, s4, T3, c2) =>
              .ok (results2, s4,
                Ev.sel idx o :: (traceSpec tl (idx + 1) ++ [] ++ T3), c2) := by
        conv_lhs => rw [combosLoop]
        rw [hsel1]
        simp only [heq1, if_neg hc]
      have hmatch3 : ∀ j o2, cur.get? j = some o2 →
          pageValue s3 j = some o2.value := by
        intro j o2 hj
        have hjlt : j < idx := by
          have := (List.get?_eq_some.1 hj).choose
          omega
        rw [hpres1 j (by omega), pageValue_set_ne s idx j o.value (by omega)]
        exact hmatch j o2 hj
      obtain ⟨newRes2, s4, c4, heq2, hmap2, hlen2, hpres2⟩ :=
        ih cur (results ++ newRes1) s3 c3 (by rw [hlen1, hs1len]) hcur hmatch3
      refine ⟨newRes1 ++ newRes2, s4, c4, ?_, ?_, ?_, ?_⟩
      · rw [hstep, heq2]
        simp [loopSpec, hc, List.append_assoc]
      · simp only [List.map_append, hmap1, hmap2, List.flatMap_cons]
        congr 1
        apply List.map_congr_left
        intro t _
        simp
      · rw [hlen2, hlen1, hs1len, hslen]
      · intro j hj
        rw [hpres2 j hj, hpres1 j (by omega),
          pageValue_set_ne s idx j o.value (by omega)]

/-- Under an all-success environment, `testCombosRecursive` succeeds,
appends one result per point of the Cartesian product of the remaining
option sets — in depth-first left-to-right order, with the recorded
`options` equal to that point — produces the closed-form trace, and leaves
the already-assigned dropdowns (< idx) untouched. -/
theorem testCombosRecursive_spec (env : Env) (hsel : ∀ d o, env.selOk d o = true) :
    ∀ (rest : List (List Opt)) (idx : Nat) (cur : List Opt)
      (results : List CombResult) (s : PageState) (c : Counters),
      s.length = idx + rest.length → cur.length = idx →
      (∀ j o, cur.get? j = some o → pageValue s j = some o.value) →
      ∃ newRes s2 c2,
        testCombosRecursive env rest idx cur results s c
            = .ok (results ++ newRes, s2, traceSpec rest idx, c2)
          ∧ newRes.map (fun r => r.options)
              = (cartProd rest).map (fun t => mkOptEntries 0 (cur ++ t))
          ∧ s2.length = s.length
          ∧ (∀ j, j < idx → pageValue s2 j = pageValue s j) := by
  intro rest
  induction rest with
  | nil =>
    intro idx cur results s c hslen hcur hmatch
    have hv := verifySelections_of_match s cur 0 (fun j o hj => by simpa using hmatch j o hj)
    have hopt := tsc_options env cur (results.length + 1) s c (mkOptEntries 0 cur)
      (by rw [hv]) (by rw [hv])
    refine ⟨[(testSingleCombination env cur (results.length + 1) s c).1], s,
      (testSingleCombination env cur (results.length + 1) s c).2, rfl, ?_, rfl,
      fun j _ => rfl⟩
    simp [cartProd, hopt]
  | cons opts tl ih =>
    intro idx cur results s c hslen hcur hmatch
    have Hrec : ∀ (cur2 : List Opt) (res2 : List CombResult) (s2 : PageState)
        (c2 : Counters),
        s2.length = idx + 1 + tl.length → cur2.length = idx + 1 →
        (∀ j o, cur2.get? j = some o → pageValue s2 j = some o.value) →
        ∃ newRes s3 c3,
          testCombosRecursive env tl (idx + 1) cur2 res2 s2 c2
              = .ok (res2 ++ newRes, s3, traceSpec tl (idx + 1), c3)
            ∧ newRes.map (fun r => r.options)
                = (cartProd tl).map (fun t => mkOptEntries 0 (cur2 ++ t))
            ∧ s3.length = s2.length
            ∧ (∀ j, j < idx + 1 → pageValue s3 j = pageValue s2 j) := by
      intro cur2 res2 s2 c2 h1 h2 h3
      exact ih (idx + 1) cur2 res2 s2 c2 (by omega) h2 h3
    obtain ⟨newRes, s2, c2, heq, hmap, hlen, hpres⟩ :=
      combosLoop_spec env hsel idx tl _ Hrec opts cur results s c
        (by simp at hslen; omega) hcur hmatch
    refine ⟨newRes, s2, c2, ?_, ?_, hlen, hpres⟩
    · exact heq
    · rw [hmap]
      simp only [cartProd, List.map_flatMap, List.map_map, Function.comp]
      apply List.flatMap_congr ?_
      intro o _
      apply List.map_congr_left
      intro t _
      simp

/-- **C1** (combination completeness): with every selection succeeding, on a
page with at least one dropdown, none of them with an empty option set, and
per-dropdown distinct option values, `testAllCombinations` /
`testCombosRecursive` returns exactly `∏ ki` CombinationResults; their
recorded Selections (`options`, the value/text of the assigned option per
dropdown in order) are, in depth-first order, exactly the Cartesian product
of the option sets — hence pairwise distinct, and equal to the product as a
set (both inclusions). -/
theorem combination_completeness (env : Env) (optionSets : List (List Opt))
    (s : PageState) (c : Counters)
    (hsel : ∀ d o, env.selOk d o = true)
    (hN : optionSets ≠ [])
    (hne : ∀ os ∈ optionSets, os ≠ [])
    (hlen : s.length = optionSets.length)
    (hnd : ∀ os ∈ optionSets, (os.map Opt.value).Nodup) :
    ∃ newRes s2 T c2,
      testAllCombinations env optionSets s c = .ok (newRes, s2, T, c2)
        ∧ newRes.length = (optionSets.map List.length).prod
        ∧ newRes.map (fun r => r.options)
            = (cartProd optionSets).map (fun t => mkOptEntries 0 t)
        ∧ (newRes.map (fun r => r.options)).Nodup
        ∧ (∀ t ∈ cartProd optionSets, mkOptEntries 0 t ∈ newRes.map (fun r => r.options))
        ∧ (∀ e ∈ newRes.map (fun r => r.options),
            ∃ t ∈ cartProd optionSets, e = mkOptEntries 0 t) := by
  obtain ⟨newRes, s2, c2, heq, hmap, _, _⟩ :=
    testCombosRecursive_spec env hsel optionSets 0 [] [] s c (by simpa using hlen) rfl
      (fun j o hj => by simp at hj)
  have hmap2 : newRes.map (fun r => r.options)
      = (cartProd optionSets).map (fun t => mkOptEntries 0 t) := by
    rw [hmap]
    apply List.map_congr_left
    intro t _
    simp
  refine ⟨newRes, s2, traceSpec optionSets 0, c2, ?_, ?_, hmap2, ?_, ?_, ?_⟩
  · unfold testAllCombinations
    rw [if_neg (by simpa [List.length_eq_zero] using hN)]
    rw [if_neg ?hany]
    case hany =>
      intro hc
      rw [List.any_eq_true] at hc
      obtain ⟨os, hos, hemp⟩ := hc
      exact hne os hos (by simpa [List.isEmpty_iff] using hemp)
    simp only [heq, List.nil_append]
  · have hlen2 := congrArg List.length hmap2
    simpa [cartProd_length] using hlen2
  · rw [hmap2]
    exact List.Nodup.map_on
      (fun x hx y hy hxy => mkOptEntries_injOn optionSets hnd 0 x y hx hy hxy)
      (cartProd_nodup optionSets (fun os h => List.Nodup.of_map _ (hnd os h)))
  · intro t ht
    rw [hmap2]
    exact List.mem_map_of_mem _ ht
  · intro e he
    rw [hmap2, List.mem_map] at he
    obtain ⟨t, ht, htE⟩ := he
    exact ⟨t, ht, htE.symm⟩

/-- Witness for C1: a 2×2 page (4 combinations) with concrete option
sets, run from a blank two-dropdown page. -/
theorem combination_completeness_witness :
    ∃ newRes s2 T c2,
      testAllCombinations baseEnv
          [[⟨"", "All", 0⟩, ⟨"b", "B", 1⟩], [⟨"", "Any", 0⟩, ⟨"y", "Y", 1⟩]]
          ["", ""] ⟨0, 0, 0⟩ = .ok (newRes, s2, T, c2)
        ∧ newRes.length
            = (([[⟨"", "All", 0⟩, ⟨"b", "B", 1⟩],
                 [⟨"", "Any", 0⟩, ⟨"y", "Y", 1⟩]] : List (List Opt)).map List.length).prod
        ∧ newRes.map (fun r => r.options)
            = (cartProd [[⟨"", "All", 0⟩, ⟨"b", "B", 1⟩],
                [⟨"", "Any", 0⟩, ⟨"y", "Y", 1⟩]]).map (fun t => mkOptEntries 0 t)
        ∧ (newRes.map (fun r => r.options)).Nodup
        ∧ (∀ t ∈ cartProd [[⟨"", "All", 0⟩, ⟨"b", "B", 1⟩], [⟨"", "Any", 0⟩, ⟨"y", "Y", 1⟩]],
            mkOptEntries 0 t ∈ newRes.map (fun r => r.options))
        ∧ (∀ e ∈ newRes.map (fun r => r.options),
            ∃ t ∈ cartProd [[⟨"", "All", 0⟩, ⟨"b", "B", 1⟩], [⟨"", "Any", 0⟩, ⟨"y", "Y", 1⟩]],
              e = mkOptEntries 0 t) :=
  combination_completeness baseEnv
    [[⟨"", "All", 0⟩, ⟨"b", "B", 1⟩], [⟨"", "Any", 0⟩, ⟨"y", "Y", 1⟩]]
    ["", ""] ⟨0, 0, 0⟩ (fun _ _ => rfl) (by decide) (by decide) rfl (by decide)

/-! ### The reset-between-siblings invariant (C4) -/

/-- The value `resetNextDropdowns` writes into a dropdown: its default
option's value (`""` only in the unreachable empty-option-set case). -/
def defaultValue (opts : List Opt) : String :=
  match defaultOption opts with
  | some o => o.value
  | none => ""

/-- When the option set is non-empty, `defaultOption` yields some option
whose value is `defaultValue`. -/
theorem defaultOption_some (opts : List Opt) (h : opts ≠ []) :
    ∃ o, defaultOption opts = some o ∧ o.value = defaultValue opts := by
  unfold defaultOption defaultValue
  cases hf : opts.find? (fun o => o.value = "") with
  | some o => exact ⟨o, rfl, by simp [defaultOption, hf]⟩
  | none =>
    cases opts with
    | nil => exact absurd rfl h
    | cons o tl => exact ⟨o, rfl, by simp [defaultOption, hf]⟩

/-- Target bounds for the sibling-loop trace. -/
theorem loopSpec_targets (idx : Nat) (sub rst : List Ev) (tl : List (List Opt))
    (hsub : ∀ ev ∈ sub, idx + 1 ≤ evTarget ev ∧ evTarget ev < idx + 1 + tl.length)
    (hrst : ∀ ev ∈ rst, idx + 1 ≤ evTarget ev ∧ evTarget ev < idx + 1 + tl.length) :
    ∀ (opts : List Opt), ∀ ev ∈ loopSpec idx sub rst tl opts,
      idx ≤ evTarget ev ∧ evTarget ev < idx + 1 + tl.length := by
  intro opts
  induction opts with
  | nil => intro ev hev; simp [loopSpec] at hev
  | cons o ro ih =>
    intro ev hev
    unfold loopSpec at hev
    rw [List.mem_cons] at hev
    rcases hev with hev | hev
    · subst hev
      exact ⟨le_refl _, by simp only [evTarget]; omega⟩
    · rw [List.mem_append] at hev
      rcases hev with hev | hev
      · rw [List.mem_append] at hev
        rcases hev with hev | hev
        · have := hsub ev hev; omega
        · split at hev
          · have := hrst ev hev; omega
          · simp at hev
      · exact ih ev hev

/-- Target bounds for the whole enumeration trace. -/
theorem traceSpec_targets : ∀ (rest : List (List Opt)) (idx : Nat),
    ∀ ev ∈ traceSpec rest idx, idx ≤ evTarget ev ∧ evTarget ev < idx + rest.length := by
  intro rest
  induction rest with
  | nil => intro idx ev hev; simp [traceSpec] at hev
  | cons opts tl ih =>
    intro idx ev hev
    have := loopSpec_targets idx (traceSpec tl (idx + 1)) (resetSpec tl (idx + 1)) tl
      (fun ev2 h2 => ih (idx + 1) ev2 h2)
      (fun ev2 h2 => by
        have := resetSpec_targets tl (idx + 1) ev2 h2
        exact ⟨this.1, this.2.1⟩)
      opts ev hev
    simp only [List.length_cons]
    omega

/-- The sibling-loop half of the C4 invariant, parametric in the subtree
trace `sub` and the reset trace `rst`.  `k0` is the option index of the
first sibling still in `opts`; `dflt k` is the default value of the `k`-th
downstream dropdown.  Conclusion, for any enumeration-selection of a
non-first option (`1 ≤ o.index`) inside the loop trace: (a) at that moment
every downstream dropdown holds its default value, and (b) either the event
is the head of this (tail-)loop, or the nearest earlier event on the same
dropdown is the enumeration-selection of the immediately preceding sibling
(in particular, the dropdown is not reset in between). -/
theorem loopSpec_between (idx : Nat) (tl : List (List Opt)) (sub rst : List Ev)
    (N : Nat) (dflt : Nat → String)
    (hsub_t : ∀ ev ∈ sub, idx + 1 ≤ evTarget ev ∧ evTarget ev < idx + 1 + tl.length)
    (hrst_t : ∀ ev ∈ rst, idx + 1 ≤ evTarget ev)
    (hrst_nosel : ∀ d o, Ev.sel d o ∉ rst)
    (hrst_apply : ∀ s : PageState, s.length = N → ∀ k, k < tl.length →
        pageValue (applyTrace s rst) (idx + 1 + k) = some (dflt k))
    (hsub_main : ∀ s : PageState, s.length = N →
      ∀ T1 d o T2, sub = T1 ++ Ev.sel d o :: T2 → 1 ≤ o.index →
        ((∀ k, k < tl.length → d < idx + 1 + k →
            pageValue (applyTrace s T1) (idx + 1 + k) = some (dflt k))
          ∧ ∃ T1a o2 T1b, T1 = T1a ++ Ev.sel d o2 :: T1b ∧ o2.index + 1 = o.index
              ∧ ∀ ev ∈ T1b, evTarget ev ≠ d)) :
    ∀ (opts : List Opt) (k0 : Nat),
      (∀ m o, opts.get? m = some o → o.index = k0 + m) →
      ∀ s : PageState, s.length = N →
      (1 ≤ k0 → ∀ k, k < tl.length → pageValue s (idx + 1 + k) = some (dflt k)) →
      ∀ T1 d o T2, loopSpec idx sub rst tl opts = T1 ++ Ev.sel d o :: T2 →
        1 ≤ o.index →
        ((∀ k, k < tl.length → d < idx + 1 + k →
            pageValue (applyTrace s T1) (idx + 1 + k) = some (dflt k))
          ∧ ((T1 = [] ∧ d = idx ∧ o.index = k0)
              ∨ ∃ T1a o2 T1b, T1 = T1a ++ Ev.sel d o2 :: T1b ∧ o2.index + 1 = o.index
                  ∧ ∀ ev ∈ T1b, evTarget ev ≠ d)) := by
  intro opts
  induction opts with
  | nil =>
    intro k0 hidx s hs hentry T1 d o T2 hdec hsib
    rw [show loopSpec idx sub rst tl [] = [] from rfl] at hdec
    cases T1 <;> simp at hdec
  | cons o0 ro ih =>
    intro k0 hidx s hs hentry T1 d o T2 hdec hsib
    have hidx0 : o0.index = k0 := by simpa using hidx 0 o0 rfl
    have hidxtail : ∀ m o2, ro.get? m = some o2 → o2.index = k0 + 1 + m := by
      intro m o2 hm
      have := hidx (m + 1) o2 (by simpa using hm)
      omega
    -- abbreviate the conditional reset trace
    set R : List Ev := if ro ≠ [] ∧ tl ≠ [] then rst else [] with hRdef
    have hR_t : ∀ ev ∈ R, idx + 1 ≤ evTarget ev := by
      intro ev hev
      rw [hRdef] at hev
      by_cases hc : ro ≠ [] ∧ tl ≠ []
      · exact hrst_t ev (by rwa [if_pos hc] at hev)
      · rw [if_neg hc] at hev; simp at hev
    have hR_nosel : ∀ d2 o2, Ev.sel d2 o2 ∉ R := by
      intro d2 o2 hev
      rw [hRdef] at hev
      by_cases hc : ro ≠ [] ∧ tl ≠ []
      · exact hrst_nosel d2 o2 (by rwa [if_pos hc] at hev)
      · rw [if_neg hc] at hev; simp at hev
    rw [show loopSpec idx sub rst tl (o0 :: ro)
      = Ev.sel idx o0 :: (sub ++ R ++ loopSpec idx sub rst tl ro) from rfl] at hdec
    cases T1 with
    | nil =>
      simp only [List.nil_append] at hdec
      injection hdec with hev hrest
      injection hev with hd ho
      subst hd; subst ho
      refine ⟨?_, Or.inl ⟨rfl, rfl, hidx0⟩⟩
      intro k hk _
      exact hentry (hidx0 ▸ hsib) k hk
    | cons e T1tail =>
      injection hdec with hev hdec2
      subst hev
      simp only [List.append_eq] at hdec2
      rw [List.append_assoc, List.append_eq_append_iff] at hdec2
      -- locate the event: inside `sub`, inside `R` (impossible), or in the tail loop
      have hpos : (∃ c2tail, sub = T1tail ++ Ev.sel d o :: c2tail)
          ∨ (∃ pfx, T1tail = sub ++ (R ++ pfx)
              ∧ loopSpec idx sub rst tl ro = pfx ++ Ev.sel d o :: T2) := by
        rcases hdec2 with ⟨a2, hT1eq, hRLeq⟩ | ⟨c2, hsubeq, hconseq⟩
        · -- the event lies beyond `sub`
          rw [List.append_eq_append_iff] at hRLeq
          rcases hRLeq with ⟨a3, ha2eq, hloopeq⟩ | ⟨c3, hReq, hconseq3⟩
          · exact Or.inr ⟨a3, by rw [hT1eq, ha2eq], hloopeq⟩
          · cases c3 with
            | nil =>
              rw [List.append_nil] at hReq
              simp only [List.nil_append] at hconseq3
              exact Or.inr ⟨[], by rw [hT1eq, hReq, List.append_nil], hconseq3.symm⟩
            | cons e3 c3tail =>
              exfalso
              injection hconseq3 with he3 _
              exact hR_nosel d o (he3 ▸ hReq ▸ List.mem_append_right a2 (by simp))
        · -- the event lies inside `sub`, or exactly at its right boundary
          cases c2 with
          | nil =>
            rw [List.append_nil] at hsubeq
            simp only [List.nil_append] at hconseq
            -- the event heads `R ++ loop`
            cases hRval : R with
            | nil =>
              rw [hRval, List.nil_append] at hconseq
              exact Or.inr ⟨[], by simp [hsubeq, hRval], by simp [← hconseq]⟩
            | cons er Rtail =>
              exfalso
              rw [hRval] at hconseq
              simp only [List.cons_append] at hconseq
              injection hconseq with her _
              exact hR_nosel d o (by rw [hRval, her]; simp)
          | cons e2 c2tail =>
            injection hconseq with he2 _
            exact Or.inl ⟨c2tail, by rw [hsubeq, he2]⟩
      rcases hpos with ⟨c2tail, hsubdec⟩ | ⟨pfx, hT1tail, hloop⟩
      · -- event inside `sub`: use the subtree property at the selected state
        have hres := hsub_main (applyEv s (Ev.sel idx o0))
          (by rw [applyEv_length, hs]) T1tail d o c2tail hsubdec hsib
        refine ⟨fun k hk hdk => hres.1 k hk hdk, ?_⟩
        obtain ⟨T1a, o2, T1b, hT1eq2, hidx2, hnot⟩ := hres.2
        exact Or.inr ⟨Ev.sel idx o0 :: T1a, o2, T1b, by rw [hT1eq2]; rfl, hidx2, hnot⟩
      · -- event in the tail loop: use the induction hypothesis
        have hronil : ro ≠ [] := by
          intro hro
          rw [hro] at hloop
          rw [show loopSpec idx sub rst tl [] = [] from rfl] at hloop
          cases pfx <;> simp at hloop
        have hentry2 : ∀ k, k < tl.length →
            pageValue (applyTrace s (Ev.sel idx o0 :: (sub ++ R))) (idx + 1 + k)
              = some (dflt k) := by
          intro k hk
          by_cases htl : tl = []
          · rw [htl] at hk; simp at hk
          · have hcond : ro ≠ [] ∧ tl ≠ [] := ⟨hronil, htl⟩
            rw [applyTrace_cons, applyTrace_append, hRdef, if_pos hcond]
            exact hrst_apply (applyTrace (applyEv s (Ev.sel idx o0)) sub)
              (by rw [applyTrace_length, applyEv_length, hs]) k hk
        have hres := ih (k0 + 1) hidxtail
          (applyTrace s (Ev.sel idx o0 :: (sub ++ R)))
          (by rw [applyTrace_length, hs])
          (fun _ => hentry2) pfx d o T2 hloop hsib
        have happ : applyTrace s (Ev.sel idx o0 :: T1tail)
            = applyTrace (applyTrace s (Ev.sel idx o0 :: (sub ++ R))) pfx := by
          rw [hT1tail]
          simp only [applyTrace_cons, applyTrace_append]
        refine ⟨?_, ?_⟩
        · intro k hk hdk
          rw [happ]
          exact hres.1 k hk hdk
        · rcases hres.2 with ⟨hpfxnil, hd2, hidx2⟩ | ⟨T1a, o2, T1b, hT1eq2, hidx2, hnot⟩
          · -- head of the tail loop: the predecessor is o0 itself
            subst hd2
            refine Or.inr ⟨[], o0, T1tail, by simp, by rw [hidx0, hidx2], ?_⟩
            intro ev hev
            rw [hT1tail, hpfxnil, List.append_nil, List.mem_append] at hev
            rcases hev with hev | hev
            · have := hsub_t ev hev; omega
            · have := hR_t ev hev; omega
          · -- predecessor found inside the tail prefix: lift it
            refine Or.inr ⟨Ev.sel idx o0 :: (sub ++ (R ++ T1a)), o2, T1b, ?_, hidx2, hnot⟩
            rw [hT1tail, hT1eq2]
            simp [List.append_assoc]

/-- The C4 invariant over the closed-form trace: before any
enumeration-selection of a non-first option on dropdown `d`, every
dropdown after `d` holds its default value, and the nearest earlier event
on `d` is the enumeration-selection of the immediately preceding sibling
(no reset of `d` in between). -/
theorem traceSpec_between : ∀ (rest : List (List Opt)) (idx N : Nat),
    (∀ os ∈ rest, os ≠ []) →
    (∀ os ∈ rest, ∀ m o, os.get? m = some o → o.index = m) →
    idx + rest.length ≤ N →
    ∀ s : PageState, s.length = N →
    ∀ T1 d o T2, traceSpec rest idx = T1 ++ Ev.sel d o :: T2 → 1 ≤ o.index →
      ((∀ k, k < rest.length → d < idx + k →
          pageValue (applyTrace s T1) (idx + k) = some (defaultValue (rest.getD k [])))
        ∧ ∃ T1a o2 T1b, T1 = T1a ++ Ev.sel d o2 :: T1b ∧ o2.index + 1 = o.index
            ∧ ∀ ev ∈ T1b, evTarget ev ≠ d) := by
  intro rest
  induction rest with
  | nil =>
    intro idx N _ _ _ s _ T1 d o T2 hdec _
    rw [show traceSpec [] idx = [] from rfl] at hdec
    cases T1 <;> simp at hdec
  | cons opts tl ih =>
    intro idx N hne hwidx hbound s hs T1 d o T2 hdec hsib
    rw [show traceSpec (opts :: tl) idx
      = loopSpec idx (traceSpec tl (idx + 1)) (resetSpec tl (idx + 1)) tl opts
      from rfl] at hdec
    have hdge : idx ≤ d := by
      have hmem : Ev.sel d o ∈ traceSpec (opts :: tl) idx := by
        rw [show traceSpec (opts :: tl) idx
          = loopSpec idx (traceSpec tl (idx + 1)) (resetSpec tl (idx + 1)) tl opts
          from rfl, hdec]
        exact List.mem_append_right T1 (List.mem_cons_self _ _)
      exact (traceSpec_targets (opts :: tl) idx _ hmem).1
    have hrst_apply2 : ∀ s2 : PageState, s2.length = N → ∀ k, k < tl.length →
        pageValue (applyTrace s2 (resetSpec tl (idx + 1))) (idx + 1 + k)
          = some (defaultValue (tl.getD k [])) := by
      intro s2 hs2 k hk
      have hget : tl.get? k = some (tl.getD k []) := by
        rw [List.getD_eq_get?]
        cases hq : tl.get? k with
        | none => rw [List.get?_eq_none] at hq; omega
        | some v => rfl
      obtain ⟨o2, hdo, hdv⟩ := defaultOption_some (tl.getD k [])
        (hne _ (List.mem_cons_of_mem _ (List.get?_mem hget)))
      rw [resetSpec_apply_default tl (idx + 1) s2 k (tl.getD k []) o2 hget hdo
        (by simp at hbound; omega), hdv]
    have hmain := loopSpec_between idx tl (traceSpec tl (idx + 1))
      (resetSpec tl (idx + 1)) N (fun k => defaultValue (tl.getD k []))
      (fun ev hev => traceSpec_targets tl (idx + 1) ev hev)
      (fun ev hev => (resetSpec_targets tl (idx + 1) ev hev).1)
      (fun d2 o2 hev => by
        obtain ⟨_, _, d3, o3, hrs⟩ := resetSpec_targets tl (idx + 1) _ hev
        exact absurd hrs (by simp))
      hrst_apply2
      (fun s2 hs2 T1b db ob T2b hdecb hsibb =>
        ih (idx + 1) N (fun os h => hne os (List.mem_cons_of_mem _ h))
          (fun os h => hwidx os (List.mem_cons_of_mem _ h))
          (by simp at hbound; omega) s2 hs2 T1b db ob T2b hdecb hsibb)
      opts 0
      (fun m o2 hm => by simpa using hwidx opts (List.mem_cons_self _ _) m o2 hm)
      s hs (fun h => absurd h (by omega)) T1 d o T2 hdec hsib
    constructor
    · intro k hk hdk
      match k with
      | 0 => omega
      | k + 1 =>
        have := hmain.1 k (by simp at hk; omega) (by omega)
        rw [show idx + (k + 1) = idx + 1 + k from by omega]
        simpa using this
    · rcases hmain.2 with ⟨_, _, hidx0⟩ | h
      · omega
      · exact h

/-- **C4** (reset-between-siblings invariant), for an enumeration in which
every selection succeeds, with well-indexed non-empty option sets.  The
run's trace `T` is quantified over all decompositions `T1 ++ [sel d o] ++ T2`
where `sel d o` is the enumeration-selection of a non-first option
(`o.index ≥ 1`, i.e. the selection of option `i+1` after the subtree of
option `i` finished).  Conclusion (a): at that moment every dropdown with
index greater than `d` is back at its default (empty-value-or-first)
option's value.  Conclusion (b): the nearest earlier event on dropdown `d`
is the enumeration-selection of option `i` itself — in particular, dropdown
`d` is not reset between the two selections. -/
theorem reset_between_siblings (env : Env) (optionSets : List (List Opt))
    (s0 : PageState) (c0 : Counters)
    (hsel : ∀ d o, env.selOk d o = true)
    (hne : ∀ os ∈ optionSets, os ≠ [])
    (hwidx : ∀ os ∈ optionSets, ∀ m o, os.get? m = some o → o.index = m)
    (hlen : s0.length = optionSets.length)
    (res : List CombResult) (s2 : PageState) (T : List Ev) (c2 : Counters)
    (hrun : testCombosRecursive env optionSets 0 [] [] s0 c0 = .ok (res, s2, T, c2))
    (T1 T2 : List Ev) (d : Nat) (o : Opt)
    (hdec : T = T1 ++ Ev.sel d o :: T2)
    (hsib : 1 ≤ o.index) :
    (∀ e, d < e → e < optionSets.length →
        pageValue (applyTrace s0 T1) e = some (defaultValue (optionSets.getD e [])))
      ∧ ∃ T1a o2 T1b, T1 = T1a ++ Ev.sel d o2 :: T1b ∧ o2.index + 1 = o.index
          ∧ ∀ ev ∈ T1b, evTarget ev ≠ d := by
  obtain ⟨newRes, s3, c3, heq, _, _, _⟩ :=
    testCombosRecursive_spec env hsel optionSets 0 [] [] s0 c0 (by simpa using hlen) rfl
      (fun j o2 hj => by simp at hj)
  rw [hrun] at heq
  injection heq with heq2
  have hT : T = traceSpec optionSets 0 := congrArg (fun q => q.2.2.1) heq2
  have hmain := traceSpec_between optionSets 0 s0.length hne hwidx (by omega) s0 rfl
    T1 d o T2 (by rw [← hT, ← hdec]) hsib
  constructor
  · intro e hde heN
    have := hmain.1 e (by omega) (by omega)
    simpa using this
  · exact hmain.2

/-- Two-element option lists with ordinal indices 0 and 1 are
well-indexed. -/
theorem wellIndexed_pair (o0 o1 : Opt) (h0 : o0.index = 0) (h1 : o1.index = 1) :
    ∀ m o, ([o0, o1] : List Opt).get? m = some o → o.index = m := by
  intro m o hm
  match m with
  | 0 => injection hm with h; rw [← h, h0]
  | 1 => injection hm with h; rw [← h, h1]
  | n + 2 => simp at hm

/-- Witness for C4 on a concrete 2×2 page: in the run's trace
`[sel 0 All, sel 1 Any, sel 1 Y, rsel 1 Any, sel 0 B, sel 1 Any, sel 1 Y]`,
at the selection of the second option `B` of dropdown 0 the downstream
dropdown 1 is back at its default, and the nearest earlier event on
dropdown 0 is the selection of the first option `All`. -/
theorem reset_between_siblings_witness :
    (∀ e, 0 < e → e < ([[⟨"", "All", 0⟩, ⟨"b", "B", 1⟩],
          [⟨"", "Any", 0⟩, ⟨"y", "Y", 1⟩]] : List (List Opt)).length →
        pageValue (applyTrace ["", ""]
            [Ev.sel 0 ⟨"", "All", 0⟩, Ev.sel 1 ⟨"", "Any", 0⟩,
              Ev.sel 1 ⟨"y", "Y", 1⟩, Ev.rsel 1 ⟨"", "Any", 0⟩]) e
          = some (defaultValue (([[⟨"", "All", 0⟩, ⟨"b", "B", 1⟩],
              [⟨"", "Any", 0⟩, ⟨"y", "Y", 1⟩]] : List (List Opt)).getD e [])))
      ∧ ∃ T1a o2 T1b,
          ([Ev.sel 0 ⟨"", "All", 0⟩, Ev.sel 1 ⟨"", "Any", 0⟩,
            Ev.sel 1 ⟨"y", "Y", 1⟩, Ev.rsel 1 ⟨"", "Any", 0⟩] : List Ev)
              = T1a ++ Ev.sel 0 o2 :: T1b
            ∧ o2.index + 1 = (⟨"b", "B", 1⟩ : Opt).index
            ∧ ∀ ev ∈ T1b, evTarget ev ≠ 0 := by
  refine reset_between_siblings baseEnv
    [[⟨"", "All", 0⟩, ⟨"b", "B", 1⟩], [⟨"", "Any", 0⟩, ⟨"y", "Y", 1⟩]]
    ["", ""] ⟨0, 0, 0⟩ (fun _ _ => rfl) (by decide) ?_ rfl _ _ _ _ rfl
    [Ev.sel 0 ⟨"", "All", 0⟩, Ev.sel 1 ⟨"", "Any", 0⟩,
      Ev.sel 1 ⟨"y", "Y", 1⟩, Ev.rsel 1 ⟨"", "Any", 0⟩]
    [Ev.sel 1 ⟨"", "Any", 0⟩, Ev.sel 1 ⟨"y", "Y", 1⟩]
    0 ⟨"b", "B", 1⟩ (by decide) (by decide)
  intro os hos
  have hos2 : os = [(⟨"", "All", 0⟩ : Opt), ⟨"b", "B", 1⟩]
      ∨ os = [(⟨"", "Any", 0⟩ : Opt), ⟨"y", "Y", 1⟩] := by simpa using hos
  rcases hos2 with rfl | rfl
  · exact wellIndexed_pair _ _ rfl rfl
  · exact wellIndexed_pair _ _ rfl rfl

end NWTF
